import Mathlib

/-!
Verification development for the `panoptes-data` structured-path parser
(`src/panoptes/data/settings.py`, `images.py`, `observations.py`).

Strings are modelled as `List Char`.  The compiled regular expression
`PATH_MATCHER` of `settings.py` is embedded as a backtracking matcher that
follows Python's `re` search order exactly: greedy quantifiers try the
longest alternative first, and the engine returns the first full match in
that order.  `.` does not match a newline, the final `$` accepts the end
of the string or a position just before a single trailing newline, and `\d`
(the pattern is a `str` compiled without `re.ASCII`) matches every Unicode
decimal digit (category `Nd`), not only `0-9`.
-/

/-- Separator class `[/_]` of `PATH_MATCHER`. -/
def sepc (c : Char) : Bool := c = '/' || c = '_'

/-- Camera-id character class `[a-gA-G0-9]` of `PATH_MATCHER`. -/
def camc (c : Char) : Bool :=
  c.isDigit || ('a' ≤ c && c ≤ 'g') || ('A' ≤ c && c ≤ 'G')

/-- Fixed-width character-class token: consume exactly `n` characters, all
satisfying `p` (`[...]{n}` in the pattern). -/
def classTok : Nat → (Char → Bool) → List Char → Option (List Char × List Char)
  | 0, _, l => some ([], l)
  | n + 1, p, c :: r =>
    if p c then
      match classTok n p r with
      | some (t, rest) => some (c :: t, rest)
      | none => none
    else none
  | _ + 1, _, [] => none

/-- The Unicode decimal-digit codepoint ranges (general category `Nd`).
`PATH_MATCHER` is compiled from a `str` pattern without `re.ASCII`, so its
`\d` matches every character of this category, not just ASCII `0-9`. -/
def ndRanges : List (Nat × Nat) :=
  [(0x30, 0x39), (0x660, 0x669), (0x6F0, 0x6F9), (0x7C0, 0x7C9),
   (0x966, 0x96F), (0x9E6, 0x9EF), (0xA66, 0xA6F), (0xAE6, 0xAEF),
   (0xB66, 0xB6F), (0xBE6, 0xBEF), (0xC66, 0xC6F), (0xCE6, 0xCEF),
   (0xD66, 0xD6F), (0xDE6, 0xDEF), (0xE50, 0xE59), (0xED0, 0xED9),
   (0xF20, 0xF29), (0x1040, 0x1049), (0x1090, 0x1099), (0x17E0, 0x17E9),
   (0x1810, 0x1819), (0x1946, 0x194F), (0x19D0, 0x19D9), (0x1A80, 0x1A89),
   (0x1A90, 0x1A99), (0x1B50, 0x1B59), (0x1BB0, 0x1BB9), (0x1C40, 0x1C49),
   (0x1C50, 0x1C59), (0xA620, 0xA629), (0xA8D0, 0xA8D9), (0xA900, 0xA909),
   (0xA9D0, 0xA9D9), (0xA9F0, 0xA9F9), (0xAA50, 0xAA59), (0xABF0, 0xABF9),
   (0xFF10, 0xFF19), (0x104A0, 0x104A9), (0x10D30, 0x10D39),
   (0x11066, 0x1106F), (0x110F0, 0x110F9), (0x11136, 0x1113F),
   (0x111D0, 0x111D9), (0x112F0, 0x112F9), (0x11450, 0x11459),
   (0x114D0, 0x114D9), (0x11650, 0x11659), (0x116C0, 0x116C9),
   (0x11730, 0x11739), (0x118E0, 0x118E9), (0x11950, 0x11959),
   (0x11C50, 0x11C59), (0x11D50, 0x11D59), (0x11DA0, 0x11DA9),
   (0x16A60, 0x16A69), (0x16AC0, 0x16AC9), (0x16B50, 0x16B59),
   (0x1D7CE, 0x1D7FF), (0x1E140, 0x1E149), (0x1E2F0, 0x1E2F9),
   (0x1E950, 0x1E959), (0x1FBF0, 0x1FBF9)]

/-- The `\d` character class of `PATH_MATCHER`: a Unicode decimal digit
(category `Nd`).  On ASCII it coincides with `0-9`. -/
def ndDigit (c : Char) : Bool :=
  if c.toNat < 0x80 then c.isDigit
  else ndRanges.any (fun p => p.1 ≤ c.toNat && c.toNat ≤ p.2)

/-- `PAN\d{3}` token (the `unit_id` group shape). -/
def unitTok (l : List Char) : Option (List Char × List Char) :=
  match l with
  | a :: b :: c :: r =>
    if a = 'P' && b = 'A' && c = 'N' then
      match classTok 3 ndDigit r with
      | some (d, rest) => some (a :: b :: c :: d, rest)
      | none => none
    else none
  | _ => none

/-- `[a-gA-G0-9]{6}` token (the `camera_id` group shape). -/
def camTok (l : List Char) : Option (List Char × List Char) :=
  classTok 6 camc l

/-- `[0-9]{8}T[0-9]{6}` token (the timestamp group shape). -/
def timeTok (l : List Char) : Option (List Char × List Char) :=
  match classTok 8 Char.isDigit l with
  | some (d8, r1) =>
    match r1 with
    | t :: r2 =>
      if t = 'T' then
        match classTok 6 Char.isDigit r2 with
        | some (d6, r3) => some (d8 ++ t :: d6, r3)
        | none => none
      else none
    | [] => none
  | none => none

/-- `PAN\d{3}_[a-gA-G0-9]{6}_[0-9]{8}T[0-9]{6}_` token (the optional
`full_image_id` group shape). -/
def fullTok (l : List Char) : Option (List Char × List Char) :=
  match unitTok l with
  | some (u, r1) =>
    match r1 with
    | c1 :: r2 =>
      if c1 = '_' then
        match camTok r2 with
        | some (cm, r3) =>
          match r3 with
          | c2 :: r4 =>
            if c2 = '_' then
              match timeTok r4 with
              | some (t, r5) =>
                match r5 with
                | c3 :: r6 =>
                  if c3 = '_' then some (u ++ c1 :: cm ++ c2 :: t ++ [c3], r6)
                  else none
                | [] => none
              | none => none
            else none
          | [] => none
        | none => none
      else none
    | [] => none
  | none => none

/-- Captures of the tail of the pattern, from the mandatory separator before
`camera_id` to the end anchor. -/
structure TailGroups where
  sep1 : Char
  camera_id : List Char
  sep2 : Char
  sequence_time : List Char
  sep3 : Char
  full_image_id : Option (List Char)
  sep4 : Option Char
  image_time : List Char
  post_info : List Char
  trailNl : Bool
deriving DecidableEq

/-- All captures of a successful `PATH_MATCHER` match. -/
structure MatchGroups where
  pre_info : List Char
  unit_id : List Char
  slash1 : Bool
  field_name : List Char
  tail : TailGroups
deriving DecidableEq

/-- `(?P<post_info>.*)?$`: greedy `.*` (not matching a newline) followed by the
end anchor, which accepts end-of-string or a position just before a single
trailing newline. -/
def postTok (l : List Char) : Option (List Char × Bool) :=
  if l.all (fun c => c ≠ '\n') then some (l, false)
  else if l.getLast? = some '\n' && l.dropLast.all (fun c => c ≠ '\n') then
    some (l.dropLast, true)
  else none

/-- Match `(?P<image_time>...)(?P<post_info>.*)?$`. -/
def imgAfter (l : List Char) : Option (List Char × List Char × Bool) :=
  match timeTok l with
  | some (t, r) =>
    match postTok r with
    | some (p, b) => some (t, p, b)
    | none => none
  | none => none

/-- Match `[/_]?(?P<image_time>...)...$`; the optional separator is greedy,
so the separator-consuming alternative is tried first. -/
def sepImgAfter (l : List Char) : Option (Option Char × List Char × List Char × Bool) :=
  (match l with
   | c :: r => if sepc c then (imgAfter r).map (fun x => (some c, x)) else none
   | [] => none) <|>
  ((imgAfter l).map (fun x => ((none : Option Char), x)))

/-- Match `(?P<full_image_id>...)?[/_]?(?P<image_time>...)...$`; the optional
full-image-id group is greedy, so its presence is tried first. -/
def fullAfter (l : List Char) :
    Option (Option (List Char) × Option Char × List Char × List Char × Bool) :=
  (match fullTok l with
   | some (f, r) => (sepImgAfter r).map (fun x => (some f, x))
   | none => none) <|>
  ((sepImgAfter l).map (fun x => ((none : Option (List Char)), x)))

/-- Match the whole fixed tail
`[/_]cam[/_]seq[/_]full?[/_]?img post $` of the pattern. -/
def tailFrom (l : List Char) : Option TailGroups :=
  match l with
  | c1 :: r1 =>
    if sepc c1 then
      match camTok r1 with
      | some (cam, r2) =>
        match r2 with
        | c2 :: r3 =>
          if sepc c2 then
            match timeTok r3 with
            | some (sq, r4) =>
              match r4 with
              | c3 :: r5 =>
                if sepc c3 then
                  match fullAfter r5 with
                  | some (fid, s4, it, po, b) =>
                    some ⟨c1, cam, c2, sq, c3, fid, s4, it, po, b⟩
                  | none => none
                else none
              | [] => none
            | none => none
          else none
        | [] => none
      | none => none
    else none
  | [] => none

/-- The alternative of `fieldSearch` that stops the `field_name` group at the
current position and matches the fixed tail there. -/
def fieldArm (acc l : List Char) : Option (List Char × TailGroups) :=
  (tailFrom l).map (fun t => (acc.reverse, t))

/-- Search for the split of `(?P<field_name>.*)?` against the fixed tail.
`.*` is greedy, so longer field names are tried first: the matcher first
extends the field (when the next character is not a newline) and only on
failure tries the fixed tail at the current position.  `acc` holds the
characters already committed to the field, in reverse. -/
def fieldSearch : List Char → List Char → Option (List Char × TailGroups)
  | acc, [] => fieldArm acc []
  | acc, c :: r =>
    (if c ≠ '\n' then fieldSearch (c :: acc) r else none) <|> fieldArm acc (c :: r)

/-- Match `/?(?P<field_name>.*)?` followed by the fixed tail; the optional
slash is greedy, so consuming it is tried first. -/
def afterUnit (l : List Char) : Option (Bool × List Char × TailGroups) :=
  (match l with
   | c :: r =>
     if c = '/' then (fieldSearch [] r).map (fun x => (true, x.1, x.2)) else none
   | [] => none) <|>
  ((fieldSearch [] l).map (fun x => (false, x.1, x.2)))

/-- The alternative of `preSearch` that places `unit_id` at the current
position. -/
def unitArm (acc l : List Char) : Option MatchGroups :=
  match unitTok l with
  | some (u, r) => (afterUnit r).map (fun x => ⟨acc.reverse, u, x.1, x.2.1, x.2.2⟩)
  | none => none

/-- Search for the split of `(?P<pre_info>.*)?` against `unit_id` and the rest
of the pattern.  `.*` is greedy, so the latest viable `unit_id` position wins:
the matcher extends the prefix first and tries the unit at the current
position only on failure of everything deeper. -/
def preSearch : List Char → List Char → Option MatchGroups
  | acc, [] => unitArm acc []
  | acc, c :: r =>
    (if c ≠ '\n' then preSearch (c :: acc) r else none) <|> unitArm acc (c :: r)

/-- Embedding of `PATH_MATCHER.match` from `settings.py`: `none` is a failed
match, `some` carries every named group. -/
def PATH_MATCHER (s : List Char) : Option MatchGroups :=
  preSearch [] s

/-- A UTC timestamp at whole-second precision.  Models the values produced by
`Time(parse_date(...))` as used by this repository (astropy `Time` wrapping a
`datetime`); only whole-second UTC instants ever arise here. -/
structure TimeDT where
  year : Nat
  month : Nat
  day : Nat
  hour : Nat
  minute : Nat
  second : Nat
deriving DecidableEq

def isLeapYear (y : Nat) : Bool :=
  (y % 4 = 0 && y % 100 ≠ 0) || y % 400 = 0

def daysInMonth (y m : Nat) : Nat :=
  if m = 2 then (if isLeapYear y then 29 else 28)
  else if m = 4 || m = 6 || m = 9 || m = 11 then 30
  else 31

/-- Calendar validity enforced by `datetime` (and hence by
`dateutil.parser.parse`): years 1..9999, real month/day, 24h clock. -/
def validDT (t : TimeDT) : Bool :=
  decide (1 ≤ t.year) && decide (t.year ≤ 9999) &&
  decide (1 ≤ t.month) && decide (t.month ≤ 12) &&
  decide (1 ≤ t.day) && decide (t.day ≤ daysInMonth t.year t.month) &&
  decide (t.hour ≤ 23) && decide (t.minute ≤ 59) && decide (t.second ≤ 59)

/-- Chronological order on timestamps, via the obvious numeric key. -/
def dtKey (t : TimeDT) : Nat :=
  ((((t.year * 100 + t.month) * 100 + t.day) * 100 + t.hour) * 100 + t.minute) * 100
    + t.second

def dtLe (a b : TimeDT) : Prop := dtKey a ≤ dtKey b

instance (a b : TimeDT) : Decidable (dtLe a b) :=
  Nat.decLe (dtKey a) (dtKey b)

def digitVal (c : Char) : Nat := c.toNat - 48

def digitsVal (l : List Char) : Nat := l.foldl (fun a c => 10 * a + digitVal c) 0

/-- Modelled from the spec: the external generic date/time parser
(`dateutil.parser.parse` composed with astropy `Time`), applied to the
canonical flattened form `YYYYMMDDTHHMMSS`.  It yields the evident timestamp
when the fifteen characters have that shape and denote a real calendar
instant, and fails (raises `ValueError`) otherwise. -/
def parseDate15 (l : List Char) : Option TimeDT :=
  match l with
  | [y1, y2, y3, y4, m1, m2, d1, d2, t, h1, h2, i1, i2, s1, s2] =>
    if t = 'T' &&
        [y1, y2, y3, y4, m1, m2, d1, d2, h1, h2, i1, i2, s1, s2].all Char.isDigit then
      let dt : TimeDT :=
        ⟨digitsVal [y1, y2, y3, y4], digitsVal [m1, m2], digitsVal [d1, d2],
         digitsVal [h1, h2], digitsVal [i1, i2], digitsVal [s1, s2]⟩
      if validDT dt then some dt else none
    else none
  | _ => none

def pad2 (n : Nat) : List Char :=
  [Char.ofNat (48 + n / 10 % 10), Char.ofNat (48 + n % 10)]

def pad4 (n : Nat) : List Char :=
  [Char.ofNat (48 + n / 1000 % 10), Char.ofNat (48 + n / 100 % 10),
   Char.ofNat (48 + n / 10 % 10), Char.ofNat (48 + n % 10)]

/-- Modelled from the spec: `flatten_time` of `panoptes.utils.time` (an
external collaborator), producing the canonical flattened representation
`YYYYMMDDTHHMMSS` (zero-padded, no separators, no timezone suffix). -/
def flatten_time (t : TimeDT) : List Char :=
  pad4 t.year ++ pad2 t.month ++ pad2 t.day ++
    'T' :: (pad2 t.hour ++ pad2 t.minute ++ pad2 t.second)

/-- The failures a construction can surface.  `invalidPath` is the
`ValueError('Invalid path received: ...')` of `__post_init__`;
`invalidTimestamp` is a `ValueError` of the date parser; `keyError` is a
missing mapping key; `unpackError` is the `ValueError` of unpacking a split
that does not have exactly three parts. -/
inductive PDError where
  | invalidPath (msg : List Char)
  | invalidTimestamp
  | keyError (key : List Char)
  | unpackError
deriving DecidableEq

/-- The message of the `ValueError` raised on a failed path match. -/
def invalidPathMessage (p : List Char) : List Char :=
  ("Invalid path received: ".data) ++ p

/-- The dataclass `ImagePathInfo` of `images.py`.  Every field defaults to
`None`. -/
structure ImagePathInfo where
  unit_id : Option (List Char) := none
  camera_id : Option (List Char) := none
  field_name : Option (List Char) := none
  sequence_time : Option TimeDT := none
  image_time : Option TimeDT := none
  path : Option (List Char) := none
deriving DecidableEq

/-- Construction of an `ImagePathInfo`: the dataclass `__init__` followed by
`__post_init__`.  When `path` is `None` the supplied fields are kept as
given; when a path is supplied, it is matched against `PATH_MATCHER`
(`ValueError` on failure) and the four identifier fields are overwritten
from the match, the two timestamps going through the date parser
(`sequence_time` first, as in the source). -/
def ImagePathInfo.make (unit_id camera_id field_name : Option (List Char))
    (sequence_time image_time : Option TimeDT) (path : Option (List Char)) :
    Except PDError ImagePathInfo :=
  match path with
  | none => .ok ⟨unit_id, camera_id, field_name, sequence_time, image_time, none⟩
  | some p =>
    match PATH_MATCHER p with
    | none => .error (.invalidPath (invalidPathMessage p))
    | some m =>
      match parseDate15 m.tail.sequence_time with
      | none => .error .invalidTimestamp
      | some ts =>
        match parseDate15 m.tail.image_time with
        | none => .error .invalidTimestamp
        | some ti =>
          .ok ⟨some m.unit_id, some m.tail.camera_id, some m.field_name,
               some ts, some ti, some p⟩

/-- `ImagePathInfo(path=p)`: the usual construction from a path string. -/
def ImagePathInfo.fromPath (p : List Char) : Except PDError ImagePathInfo :=
  ImagePathInfo.make none none none none none (some p)

/-- Property `sequence_id`; `none` models the crash of `flatten_time` on an
absent field. -/
def ImagePathInfo.sequence_id (i : ImagePathInfo) : Option (List Char) := do
  let u ← i.unit_id
  let c ← i.camera_id
  let ts ← i.sequence_time
  some (u ++ '_' :: c ++ '_' :: flatten_time ts)

/-- Property `image_id`. -/
def ImagePathInfo.image_id (i : ImagePathInfo) : Option (List Char) := do
  let u ← i.unit_id
  let c ← i.camera_id
  let ti ← i.image_time
  some (u ++ '_' :: c ++ '_' :: flatten_time ti)

/-- Method `get_full_id(sep)`: the four parts joined with the separator. -/
def ImagePathInfo.get_full_id (i : ImagePathInfo) (sep : List Char) :
    Option (List Char) := do
  let u ← i.unit_id
  let c ← i.camera_id
  let ts ← i.sequence_time
  let ti ← i.image_time
  some (u ++ sep ++ c ++ sep ++ flatten_time ts ++ sep ++ flatten_time ti)

/-- Property `id`: `get_full_id` with the default separator. -/
def ImagePathInfo.id (i : ImagePathInfo) : Option (List Char) :=
  i.get_full_id ['_']

/-- Method `as_path(base, ext)`: `unit/camera/flat(seq)/flat(img)[.ext]`,
prefixed by `base` when given (pure `pathlib`-style joining of plain
segments). -/
def ImagePathInfo.as_path (i : ImagePathInfo) (base : Option (List Char))
    (ext : Option (List Char)) : Option (List Char) := do
  let u ← i.unit_id
  let c ← i.camera_id
  let ts ← i.sequence_time
  let ti ← i.image_time
  let imageStr := flatten_time ti ++ (match ext with
    | some e => '.' :: e
    | none => [])
  let fullPath := u ++ '/' :: c ++ '/' :: flatten_time ts ++ '/' :: imageStr
  some (match base with
    | some b => b ++ '/' :: fullPath
    | none => fullPath)

/-- First-match lookup in a FITS-style header mapping. -/
def headerLookup (k : List Char) : List (List Char × List Char) → Option (List Char)
  | [] => none
  | (k2, v) :: r => if k2 = k then some v else headerLookup k r

/-- Python `str.split('_')`. -/
def splitUnderscores : List Char → List (List Char)
  | [] => [[]]
  | c :: r =>
    match splitUnderscores r with
    | p :: rest => if c = '_' then [] :: p :: rest else (c :: p) :: rest
    | [] => [[c]]

/-- Classmethod `ImagePathInfo.from_fits_header`: try construction from the
`FILENAME` value (a missing key propagates as `KeyError`); on a `ValueError`
fall back to `SEQID`/`IMAGEID`, each split on underscores into exactly three
parts, in the evaluation order of the source. -/
def ImagePathInfo.from_fits_header (h : List (List Char × List Char)) :
    Except PDError ImagePathInfo :=
  match headerLookup ("FILENAME".data) h with
  | none => .error (.keyError ("FILENAME".data))
  | some fn =>
    match ImagePathInfo.fromPath fn with
    | .ok i => .ok i
    | .error _ =>
      match headerLookup ("SEQID".data) h with
      | none => .error (.keyError ("SEQID".data))
      | some sid =>
        match headerLookup ("IMAGEID".data) h with
        | none => .error (.keyError ("IMAGEID".data))
        | some iid =>
          match splitUnderscores sid with
          | [u, c, st] =>
            match splitUnderscores iid with
            | [_, _, it] =>
              match parseDate15 st with
              | none => .error .invalidTimestamp
              | some ts =>
                match parseDate15 it with
                | none => .error .invalidTimestamp
                | some ti =>
                  ImagePathInfo.make (some u) (some c) none (some ts) (some ti) none
            | _ => .error .unpackError
          | _ => .error .unpackError

/-- The dataclass `ObservationPathInfo` of `observations.py`.  Its parsing
logic is the same as `ImagePathInfo`'s; only the declaration order of the
fields differs (`path` comes first). -/
structure ObservationPathInfo where
  path : Option (List Char) := none
  unit_id : Option (List Char) := none
  camera_id : Option (List Char) := none
  field_name : Option (List Char) := none
  sequence_time : Option TimeDT := none
  image_time : Option TimeDT := none
deriving DecidableEq

/-- Construction of an `ObservationPathInfo` (`__init__` + `__post_init__` of
`observations.py`), mirroring `ImagePathInfo.make`. -/
def ObservationPathInfo.make (path : Option (List Char))
    (unit_id camera_id field_name : Option (List Char))
    (sequence_time image_time : Option TimeDT) :
    Except PDError ObservationPathInfo :=
  match path with
  | none => .ok ⟨none, unit_id, camera_id, field_name, sequence_time, image_time⟩
  | some p =>
    match PATH_MATCHER p with
    | none => .error (.invalidPath (invalidPathMessage p))
    | some m =>
      match parseDate15 m.tail.sequence_time with
      | none => .error .invalidTimestamp
      | some ts =>
        match parseDate15 m.tail.image_time with
        | none => .error .invalidTimestamp
        | some ti =>
          .ok ⟨some p, some m.unit_id, some m.tail.camera_id, some m.field_name,
               some ts, some ti⟩

/-- `ObservationPathInfo(path=p)`. -/
def ObservationPathInfo.fromPath (p : List Char) : Except PDError ObservationPathInfo :=
  ObservationPathInfo.make (some p) none none none none none

/-- Property `sequence_id` of `ObservationPathInfo`. -/
def ObservationPathInfo.sequence_id (i : ObservationPathInfo) : Option (List Char) := do
  let u ← i.unit_id
  let c ← i.camera_id
  let ts ← i.sequence_time
  some (u ++ '_' :: c ++ '_' :: flatten_time ts)

/-- Property `image_id` of `ObservationPathInfo`. -/
def ObservationPathInfo.image_id (i : ObservationPathInfo) : Option (List Char) := do
  let u ← i.unit_id
  let c ← i.camera_id
  let ti ← i.image_time
  some (u ++ '_' :: c ++ '_' :: flatten_time ti)

/-- Method `get_full_id(sep)` of `ObservationPathInfo`. -/
def ObservationPathInfo.get_full_id (i : ObservationPathInfo) (sep : List Char) :
    Option (List Char) := do
  let u ← i.unit_id
  let c ← i.camera_id
  let ts ← i.sequence_time
  let ti ← i.image_time
  some (u ++ sep ++ c ++ sep ++ flatten_time ts ++ sep ++ flatten_time ti)

/-- Property `id` of `ObservationPathInfo`. -/
def ObservationPathInfo.id (i : ObservationPathInfo) : Option (List Char) :=
  i.get_full_id ['_']

/-- Method `as_path(base, ext)` of `ObservationPathInfo`. -/
def ObservationPathInfo.as_path (i : ObservationPathInfo) (base : Option (List Char))
    (ext : Option (List Char)) : Option (List Char) := do
  let u ← i.unit_id
  let c ← i.camera_id
  let ts ← i.sequence_time
  let ti ← i.image_time
  let imageStr := flatten_time ti ++ (match ext with
    | some e => '.' :: e
    | none => [])
  let fullPath := u ++ '/' :: c ++ '/' :: flatten_time ts ++ '/' :: imageStr
  some (match base with
    | some b => b ++ '/' :: fullPath
    | none => fullPath)

/-- Classmethod `ObservationPathInfo.from_fits_header`, mirroring the one of
`images.py`. -/
def ObservationPathInfo.from_fits_header (h : List (List Char × List Char)) :
    Except PDError ObservationPathInfo :=
  match headerLookup ("FILENAME".data) h with
  | none => .error (.keyError ("FILENAME".data))
  | some fn =>
    match ObservationPathInfo.fromPath fn with
    | .ok i => .ok i
    | .error _ =>
      match headerLookup ("SEQID".data) h with
      | none => .error (.keyError ("SEQID".data))
      | some sid =>
        match headerLookup ("IMAGEID".data) h with
        | none => .error (.keyError ("IMAGEID".data))
        | some iid =>
          match splitUnderscores sid with
          | [u, c, st] =>
            match splitUnderscores iid with
            | [_, _, it] =>
              match parseDate15 st with
              | none => .error .invalidTimestamp
              | some ts =>
                match parseDate15 it with
                | none => .error .invalidTimestamp
                | some ti =>
                  ObservationPathInfo.make none (some u) (some c) none (some ts)
                    (some ti)
            | _ => .error .unpackError
          | _ => .error .unpackError

/-- Field-for-field view of an `ObservationPathInfo` as an `ImagePathInfo`,
used to state that the two near-duplicate classes behave identically. -/
def ObservationPathInfo.toImagePathInfo (o : ObservationPathInfo) : ImagePathInfo :=
  ⟨o.unit_id, o.camera_id, o.field_name, o.sequence_time, o.image_time, o.path⟩

/-- Shape of the `unit_id` digit suffix over ASCII digits: exactly three
characters of `0-9` (the form every identifier of this archive uses). -/
def unit3 (u3 : List Char) : Prop :=
  u3.length = 3 ∧ ∀ c ∈ u3, c.isDigit = true

/-- Shape of the `unit_id` digit suffix as the pattern's `\d{3}` actually
accepts it: exactly three Unicode decimal digits. -/
def nd3 (u3 : List Char) : Prop :=
  u3.length = 3 ∧ ∀ c ∈ u3, ndDigit c = true

/-- Shape of a `camera_id`: exactly six characters of the class `[a-gA-G0-9]`. -/
def camShaped (cam : List Char) : Prop :=
  cam.length = 6 ∧ ∀ c ∈ cam, camc c = true

/-- Shape of a timestamp token: `[0-9]{8}T[0-9]{6}`. -/
def timeShaped (t : List Char) : Prop :=
  ∃ d8 d6, t = d8 ++ 'T' :: d6 ∧ d8.length = 8 ∧ d6.length = 6 ∧
    (∀ c ∈ d8, c.isDigit = true) ∧ (∀ c ∈ d6, c.isDigit = true)

theorem camc_of_digit {c : Char} (h : c.isDigit = true) : camc c = true := by
  simp [camc, h]

theorem isDigit_toNat {c : Char} (h : c.isDigit = true) :
    48 ≤ c.toNat ∧ c.toNat ≤ 57 := by
  simp only [Char.isDigit, decide_eq_true_eq, Bool.and_eq_true] at h
  exact h

/-- Every ASCII digit is a Unicode decimal digit. -/
theorem ndDigit_of_isDigit {c : Char} (h : c.isDigit = true) : ndDigit c = true := by
  have := isDigit_toNat h
  unfold ndDigit
  rw [if_pos (by omega)]
  exact h

/-- A `unit3` digit suffix also has the `nd3` shape. -/
theorem nd3_of_unit3 {u3 : List Char} (h : unit3 u3) : nd3 u3 :=
  ⟨h.1, fun c hc => ndDigit_of_isDigit (h.2 c hc)⟩

theorem sepc_eq_true_iff {c : Char} : sepc c = true ↔ c = '/' ∨ c = '_' := by
  simp [sepc]

theorem not_sepc_of_camc {c : Char} (h : camc c = true) : sepc c = false := by
  rcases eq_or_ne c '/' with rfl | h1
  · exact absurd h (by decide)
  rcases eq_or_ne c '_' with rfl | h2
  · exact absurd h (by decide)
  simp [sepc, h1, h2]

theorem not_sepc_of_digit {c : Char} (h : c.isDigit = true) : sepc c = false :=
  not_sepc_of_camc (camc_of_digit h)

theorem ne_nl_of_camc {c : Char} (h : camc c = true) : c ≠ '\n' := by
  rintro rfl; exact absurd h (by decide)

theorem ne_nl_of_digit {c : Char} (h : c.isDigit = true) : c ≠ '\n' :=
  ne_nl_of_camc (camc_of_digit h)

theorem ne_nl_of_sepc {c : Char} (h : sepc c = true) : c ≠ '\n' := by
  rcases sepc_eq_true_iff.mp h with rfl | rfl <;> decide

theorem ne_P_of_camc {c : Char} (h : camc c = true) : c ≠ 'P' := by
  rintro rfl; exact absurd h (by decide)

theorem ne_P_of_digit {c : Char} (h : c.isDigit = true) : c ≠ 'P' :=
  ne_P_of_camc (camc_of_digit h)

theorem ne_P_of_sepc {c : Char} (h : sepc c = true) : c ≠ 'P' := by
  rcases sepc_eq_true_iff.mp h with rfl | rfl <;> decide

theorem opt_orElse_none {α : Type} (a : Option α) : (a <|> none) = a := by
  cases a <;> rfl

theorem opt_orElse_of_none {α : Type} {a : Option α} (b : Option α) (h : a = none) :
    (a <|> b) = b := by
  subst h; rfl

theorem opt_orElse_of_some {α : Type} {a : Option α} {x : α} (b : Option α)
    (h : a = some x) : (a <|> b) = some x := by
  subst h; rfl

theorem opt_orElse_inv {α : Type} {a b : Option α} {x : α} (h : (a <|> b) = some x) :
    a = some x ∨ (a = none ∧ b = some x) := by
  cases a with
  | some y => exact Or.inl h
  | none => exact Or.inr ⟨rfl, h⟩

theorem classTok_append {p : Char → Bool} :
    ∀ {l : List Char} (r : List Char), (∀ c ∈ l, p c = true) →
      classTok l.length p (l ++ r) = some (l, r) := by
  intro l
  induction l with
  | nil => intro r _; rfl
  | cons c t ih =>
    intro r hall
    have hc : p c = true := hall c (List.mem_cons_self c t)
    simp only [List.length_cons, List.cons_append, classTok]
    rw [if_pos hc]
    have := ih r (fun d hd => hall d (List.mem_cons_of_mem c hd))
    simp only [List.append_eq] at this ⊢
    rw [this]

theorem classTok_sound {p : Char → Bool} :
    ∀ {n : Nat} {l t r : List Char}, classTok n p l = some (t, r) →
      l = t ++ r ∧ t.length = n ∧ ∀ c ∈ t, p c = true := by
  intro n
  induction n with
  | zero =>
    intro l t r h
    simp only [classTok, Option.some.injEq, Prod.mk.injEq] at h
    obtain ⟨rfl, rfl⟩ := h
    exact ⟨rfl, rfl, by simp⟩
  | succ n ih =>
    intro l t r h
    cases l with
    | nil => simp [classTok] at h
    | cons c l' =>
      simp only [classTok] at h
      by_cases hc : p c = true
      · rw [if_pos hc] at h
        cases hEq : classTok n p l' with
        | none => rw [hEq] at h; simp at h
        | some pr =>
          obtain ⟨t', rest⟩ := pr
          rw [hEq] at h
          simp only [Option.some.injEq, Prod.mk.injEq] at h
          obtain ⟨rfl, rfl⟩ := h
          obtain ⟨hl, hlen, hall⟩ := ih hEq
          refine ⟨by simp [hl], by simp [hlen], ?_⟩
          intro d hd
          rcases List.mem_cons.mp hd with rfl | hd'
          · exact hc
          · exact hall d hd'
      · rw [Bool.not_eq_true] at hc
        rw [hc] at h; simp at h

theorem unitTok_append {u3 : List Char} (r : List Char) (h : unit3 u3) :
    unitTok (('P' :: 'A' :: 'N' :: u3) ++ r) = some ('P' :: 'A' :: 'N' :: u3, r) := by
  obtain ⟨hlen, hall⟩ := h
  simp only [List.cons_append, unitTok]
  rw [if_pos (by decide), show (3 : Nat) = u3.length from hlen.symm,
    classTok_append r (fun c hc => ndDigit_of_isDigit (hall c hc))]

theorem unitTok_sound {l u r : List Char} (h : unitTok l = some (u, r)) :
    l = u ++ r ∧ ∃ d, u = 'P' :: 'A' :: 'N' :: d ∧ nd3 d := by
  match l with
  | [] => simp [unitTok] at h
  | [a] => simp [unitTok] at h
  | [a, b] => simp [unitTok] at h
  | a :: b :: c :: l' =>
    simp only [unitTok] at h
    by_cases hc : (a = 'P' && b = 'A' && c = 'N') = true
    · rw [if_pos hc] at h
      simp only [Bool.and_eq_true, decide_eq_true_eq] at hc
      obtain ⟨⟨rfl, rfl⟩, rfl⟩ := hc
      cases hEq : classTok 3 ndDigit l' with
      | none => rw [hEq] at h; simp at h
      | some pr =>
        obtain ⟨d, rest⟩ := pr
        rw [hEq] at h
        simp only [Option.some.injEq, Prod.mk.injEq] at h
        obtain ⟨rfl, rfl⟩ := h
        obtain ⟨hl, hlen, hall⟩ := classTok_sound hEq
        exact ⟨by simp [hl], d, rfl, hlen, hall⟩
    · rw [Bool.not_eq_true] at hc
      rw [hc] at h; simp at h

theorem unitTok_ne_P {a : Char} (l : List Char) (h : a ≠ 'P') :
    unitTok (a :: l) = none := by
  match l with
  | [] => rfl
  | [b] => rfl
  | b :: c :: l' => simp [unitTok, h]

theorem timeTok_append {t : List Char} (r : List Char) (h : timeShaped t) :
    timeTok (t ++ r) = some (t, r) := by
  obtain ⟨d8, d6, rfl, h8, h6, hall8, hall6⟩ := h
  have : (d8 ++ 'T' :: d6) ++ r = d8 ++ 'T' :: (d6 ++ r) := by simp
  rw [this]
  simp only [timeTok]
  rw [show (8 : Nat) = d8.length from h8.symm, classTok_append ('T' :: (d6 ++ r)) hall8]
  show (if ('T' : Char) = 'T' then
      match classTok 6 Char.isDigit (d6 ++ r) with
      | some (d6x, r3) => some (d8 ++ 'T' :: d6x, r3)
      | none => none
    else none) = some (d8 ++ 'T' :: d6, r)
  rw [if_pos rfl]
  rw [show (6 : Nat) = d6.length from h6.symm, classTok_append r hall6]

theorem timeTok_sound {l t r : List Char} (h : timeTok l = some (t, r)) :
    l = t ++ r ∧ timeShaped t := by
  simp only [timeTok] at h
  cases h8 : classTok 8 Char.isDigit l with
  | none => rw [h8] at h; simp at h
  | some pr8 =>
    obtain ⟨d8, r1⟩ := pr8
    rw [h8] at h
    obtain ⟨hl8, hlen8, hall8⟩ := classTok_sound h8
    cases r1 with
    | nil => simp at h
    | cons tc r2 =>
      simp only at h
      by_cases htc : tc = 'T'
      · subst htc
        rw [if_pos rfl] at h
        cases h6 : classTok 6 Char.isDigit r2 with
        | none => rw [h6] at h; simp at h
        | some pr6 =>
          obtain ⟨d6, r3⟩ := pr6
          rw [h6] at h
          simp only [Option.some.injEq, Prod.mk.injEq] at h
          obtain ⟨rfl, rfl⟩ := h
          obtain ⟨hl6, hlen6, hall6⟩ := classTok_sound h6
          constructor
          · rw [hl8, hl6]; simp
          · exact ⟨d8, d6, rfl, hlen8, hlen6, hall8, hall6⟩
      · rw [if_neg (by simpa using htc)] at h
        simp at h

theorem timeShaped_chars {t : List Char} (h : timeShaped t) :
    ∀ c ∈ t, sepc c = false ∧ c ≠ '\n' ∧ c ≠ 'P' := by
  obtain ⟨d8, d6, rfl, _, _, hall8, hall6⟩ := h
  intro c hc
  rcases List.mem_append.mp hc with h8 | hT6
  · exact ⟨not_sepc_of_digit (hall8 c h8), ne_nl_of_digit (hall8 c h8),
      ne_P_of_digit (hall8 c h8)⟩
  · rcases List.mem_cons.mp hT6 with rfl | h6
    · exact ⟨by decide, by decide, by decide⟩
    · exact ⟨not_sepc_of_digit (hall6 c h6), ne_nl_of_digit (hall6 c h6),
        ne_P_of_digit (hall6 c h6)⟩

theorem camShaped_chars {cam : List Char} (h : camShaped cam) :
    ∀ c ∈ cam, sepc c = false ∧ c ≠ '\n' ∧ c ≠ 'P' :=
  fun c hc => ⟨not_sepc_of_camc (h.2 c hc), ne_nl_of_camc (h.2 c hc),
    ne_P_of_camc (h.2 c hc)⟩

theorem timeShaped_head {t : List Char} (h : timeShaped t) :
    ∃ c t', t = c :: t' ∧ c.isDigit = true := by
  obtain ⟨d8, d6, rfl, h8, _, hall8, _⟩ := h
  cases d8 with
  | nil => simp at h8
  | cons e d8' =>
    exact ⟨e, d8' ++ 'T' :: d6, rfl, hall8 e (List.mem_cons_self e d8')⟩

theorem fullTok_head_ne_P {c : Char} (r : List Char) (h : c ≠ 'P') :
    fullTok (c :: r) = none := by
  simp [fullTok, unitTok_ne_P r h]

theorem tailFrom_not_sep {c : Char} (l : List Char) (h : sepc c = false) :
    tailFrom (c :: l) = none := by
  simp [tailFrom, h]

theorem tailFrom_sep_time {c : Char} {t : List Char} (r : List Char)
    (hc : sepc c = true) (ht : timeShaped t) : tailFrom (c :: (t ++ r)) = none := by
  obtain ⟨d8, d6, rfl, h8, h6, hall8, hall6⟩ := ht
  rcases d8 with _ | ⟨e1, d8⟩; · simp at h8
  rcases d8 with _ | ⟨e2, d8⟩; · simp at h8
  rcases d8 with _ | ⟨e3, d8⟩; · simp at h8
  rcases d8 with _ | ⟨e4, d8⟩; · simp at h8
  rcases d8 with _ | ⟨e5, d8⟩; · simp at h8
  rcases d8 with _ | ⟨e6, d8⟩; · simp at h8
  rcases d8 with _ | ⟨e7, d8⟩; · simp at h8
  rcases d8 with _ | ⟨e8, d8⟩; · simp at h8
  rcases d8 with _ | ⟨e9, d8⟩
  case cons => simp at h8
  have he7 : sepc e7 = false := not_sepc_of_digit (hall8 e7 (by simp))
  have hcam : ∀ d ∈ [e1, e2, e3, e4, e5, e6], camc d = true := by
    intro d hd
    refine camc_of_digit (hall8 d ?_)
    simp only [List.mem_cons, List.not_mem_nil, or_false] at hd ⊢
    tauto
  simp only [tailFrom]
  rw [if_pos hc]
  have heq : ([e1, e2, e3, e4, e5, e6, e7, e8] ++ 'T' :: d6) ++ r =
      [e1, e2, e3, e4, e5, e6] ++ (e7 :: e8 :: 'T' :: (d6 ++ r)) := by simp
  rw [heq]
  rw [show camTok ([e1, e2, e3, e4, e5, e6] ++ (e7 :: e8 :: 'T' :: (d6 ++ r))) =
      some ([e1, e2, e3, e4, e5, e6], e7 :: e8 :: 'T' :: (d6 ++ r)) from
    classTok_append _ hcam]
  simp [he7]

theorem fieldSearch_nil (acc : List Char) : fieldSearch acc [] = none := rfl

theorem fieldSearch_cons (acc : List Char) (c : Char) (r : List Char) :
    fieldSearch acc (c :: r) =
      ((if c ≠ '\n' then fieldSearch (c :: acc) r else none) <|> fieldArm acc (c :: r)) :=
  rfl

theorem preSearch_nil (acc : List Char) : preSearch acc [] = none := rfl

theorem preSearch_cons (acc : List Char) (c : Char) (r : List Char) :
    preSearch acc (c :: r) =
      ((if c ≠ '\n' then preSearch (c :: acc) r else none) <|> unitArm acc (c :: r)) :=
  rfl

theorem fieldSearch_run : ∀ {l : List Char} (acc r : List Char),
    (∀ c ∈ l, sepc c = false ∧ c ≠ '\n') →
    fieldSearch acc (l ++ r) = fieldSearch (l.reverse ++ acc) r := by
  intro l
  induction l with
  | nil => intro acc r _; simp
  | cons c t ih =>
    intro acc r hl
    have hc := hl c (List.mem_cons_self c t)
    rw [List.cons_append, fieldSearch_cons, if_pos hc.2]
    have harm : fieldArm acc (c :: (t ++ r)) = none := by
      simp [fieldArm, tailFrom_not_sep _ hc.1]
    rw [harm, opt_orElse_none, ih (c :: acc) r (fun d hd => hl d (List.mem_cons_of_mem c hd))]
    simp

theorem fieldSearch_descend : ∀ {l : List Char} (acc r : List Char)
    {v : List Char × TailGroups}, (∀ c ∈ l, c ≠ '\n') →
    fieldSearch (l.reverse ++ acc) r = some v → fieldSearch acc (l ++ r) = some v := by
  intro l
  induction l with
  | nil => intro acc r v _ h; simpa using h
  | cons c t ih =>
    intro acc r v hl h
    rw [List.cons_append, fieldSearch_cons, if_pos (hl c (List.mem_cons_self c t))]
    refine opt_orElse_of_some _ (ih (c :: acc) r (fun d hd => hl d (List.mem_cons_of_mem c hd)) ?_)
    rw [show t.reverse ++ c :: acc = (c :: t).reverse ++ acc by simp]
    exact h

theorem preSearch_descend : ∀ {l : List Char} (acc r : List Char) {v : MatchGroups},
    (∀ c ∈ l, c ≠ '\n') →
    preSearch (l.reverse ++ acc) r = some v → preSearch acc (l ++ r) = some v := by
  intro l
  induction l with
  | nil => intro acc r v _ h; simpa using h
  | cons c t ih =>
    intro acc r v hl h
    rw [List.cons_append, preSearch_cons, if_pos (hl c (List.mem_cons_self c t))]
    refine opt_orElse_of_some _ (ih (c :: acc) r (fun d hd => hl d (List.mem_cons_of_mem c hd)) ?_)
    rw [show t.reverse ++ c :: acc = (c :: t).reverse ++ acc by simp]
    exact h

theorem preSearch_none : ∀ {l : List Char},
    (∀ l₂, l₂ <:+ l → l₂ ≠ [] → unitTok l₂ = none) → ∀ acc, preSearch acc l = none := by
  intro l
  induction l with
  | nil => intro _ acc; rfl
  | cons c t ih =>
    intro h acc
    rw [preSearch_cons]
    have harm : unitArm acc (c :: t) = none := by
      simp [unitArm, h (c :: t) (List.suffix_refl _) (by simp)]
    have hin : preSearch (c :: acc) t = none :=
      ih (fun l₂ hs hne => h l₂ (hs.trans (List.suffix_cons c t)) hne) (c :: acc)
    by_cases hc : c ≠ '\n'
    · rw [if_pos hc, hin, harm]; rfl
    · rw [if_neg hc, harm]; rfl

theorem preSearch_none_of_no_P {l : List Char} (h : ∀ c ∈ l, c ≠ 'P') :
    ∀ acc, preSearch acc l = none := by
  refine preSearch_none ?_
  intro l₂ hs hne
  cases l₂ with
  | nil => exact absurd rfl hne
  | cons c t =>
    exact unitTok_ne_P t (h c (hs.subset (List.mem_cons_self c t)))

theorem camTok_append {cam : List Char} (r : List Char) (h : camShaped cam) :
    camTok (cam ++ r) = some (cam, r) := by
  unfold camTok
  rw [show (6 : Nat) = cam.length from h.1.symm]
  exact classTok_append r h.2

theorem imgAfter_time {it : List Char} (h : timeShaped it) :
    imgAfter it = some (it, [], false) := by
  have htok : timeTok it = some (it, []) := by
    have := timeTok_append [] h
    simpa using this
  simp [imgAfter, htok, postTok]

theorem sepImgAfter_time {it : List Char} (h : timeShaped it) :
    sepImgAfter it = some (none, it, [], false) := by
  obtain ⟨c0, it', rfl, hd⟩ := timeShaped_head h
  have h1 : sepc c0 = false := not_sepc_of_digit hd
  have himg := imgAfter_time h
  simp [sepImgAfter, h1, himg]

theorem fullAfter_time {it : List Char} (h : timeShaped it) :
    fullAfter it = some (none, none, it, [], false) := by
  have hfull : fullTok it = none := by
    obtain ⟨c0, it', rfl, hd⟩ := timeShaped_head h
    exact fullTok_head_ne_P _ (ne_P_of_digit hd)
  simp [fullAfter, hfull, sepImgAfter_time h]

theorem tailFrom_canonical {cam sq it : List Char} {s1 s2 s3 : Char}
    (hs1 : sepc s1 = true) (hs2 : sepc s2 = true) (hs3 : sepc s3 = true)
    (hcam : camShaped cam) (hsq : timeShaped sq) (hit : timeShaped it) :
    tailFrom (s1 :: (cam ++ s2 :: (sq ++ s3 :: it))) =
      some ⟨s1, cam, s2, sq, s3, none, none, it, [], false⟩ := by
  have hct := camTok_append (s2 :: (sq ++ s3 :: it)) hcam
  have htt := timeTok_append (s3 :: it) hsq
  have hfa := fullAfter_time hit
  simp [tailFrom, hs1, hs2, hs3, hct, htt, hfa]

theorem fieldSearch_zone_none {cam sq it : List Char} {s2 s3 : Char}
    (hcam : camShaped cam) (hsq : timeShaped sq) (hit : timeShaped it)
    (hs2 : sepc s2 = true) (hs3 : sepc s3 = true) (acc : List Char) :
    fieldSearch acc (cam ++ s2 :: (sq ++ s3 :: it)) = none := by
  rw [fieldSearch_run acc _
    (fun c hc => ⟨(camShaped_chars hcam c hc).1, (camShaped_chars hcam c hc).2.1⟩)]
  rw [fieldSearch_cons, if_pos (ne_nl_of_sepc hs2)]
  have harm2 : fieldArm (cam.reverse ++ acc) (s2 :: (sq ++ s3 :: it)) = none := by
    simp [fieldArm, tailFrom_sep_time _ hs2 hsq]
  have hin : fieldSearch (s2 :: (cam.reverse ++ acc)) (sq ++ s3 :: it) = none := by
    rw [fieldSearch_run _ _
      (fun c hc => ⟨(timeShaped_chars hsq c hc).1, (timeShaped_chars hsq c hc).2.1⟩)]
    rw [fieldSearch_cons, if_pos (ne_nl_of_sepc hs3)]
    have harm3 : fieldArm (sq.reverse ++ (s2 :: (cam.reverse ++ acc))) (s3 :: it) = none := by
      have hts : tailFrom (s3 :: it) = none := by
        have := tailFrom_sep_time [] hs3 hit
        simpa using this
      simp [fieldArm, hts]
    have hin2 : fieldSearch (s3 :: (sq.reverse ++ (s2 :: (cam.reverse ++ acc)))) it = none := by
      have := fieldSearch_run (s3 :: (sq.reverse ++ (s2 :: (cam.reverse ++ acc)))) []
        (fun c hc => ⟨(timeShaped_chars hit c hc).1, (timeShaped_chars hit c hc).2.1⟩)
      rw [List.append_nil] at this
      rw [this, fieldSearch_nil]
    rw [hin2, harm3]; rfl
  rw [hin, harm2]; rfl

theorem afterUnit_sep_zone {cam sq it : List Char} {s1 s2 s3 : Char}
    (hs1 : sepc s1 = true) (hs2 : sepc s2 = true) (hs3 : sepc s3 = true)
    (hcam : camShaped cam) (hsq : timeShaped sq) (hit : timeShaped it) :
    afterUnit (s1 :: (cam ++ s2 :: (sq ++ s3 :: it))) =
      some (false, [], ⟨s1, cam, s2, sq, s3, none, none, it, [], false⟩) := by
  have hzero : fieldSearch [] (cam ++ s2 :: (sq ++ s3 :: it)) = none :=
    fieldSearch_zone_none hcam hsq hit hs2 hs3 []
  have hmain : fieldSearch [] (s1 :: (cam ++ s2 :: (sq ++ s3 :: it))) =
      some ([], ⟨s1, cam, s2, sq, s3, none, none, it, [], false⟩) := by
    rw [fieldSearch_cons, if_pos (ne_nl_of_sepc hs1)]
    rw [show fieldSearch [s1] (cam ++ s2 :: (sq ++ s3 :: it)) = none from
      fieldSearch_zone_none hcam hsq hit hs2 hs3 [s1]]
    rw [opt_orElse_of_none]
    · simp [fieldArm, tailFrom_canonical hs1 hs2 hs3 hcam hsq hit]
    · rfl
  by_cases h1 : s1 = '/'
  · subst h1
    simp only [afterUnit]
    rw [hzero, hmain]
    rfl
  · simp only [afterUnit]
    rw [if_neg h1, hmain]
    rfl

theorem afterUnit_field_zone {f cam sq it : List Char}
    (hf : ∀ c ∈ f, c ≠ '\n')
    (hcam : camShaped cam) (hsq : timeShaped sq) (hit : timeShaped it) :
    afterUnit ('/' :: (f ++ '/' :: (cam ++ '/' :: (sq ++ '/' :: it)))) =
      some (true, f, ⟨'/', cam, '/', sq, '/', none, none, it, [], false⟩) := by
  have hsl : sepc '/' = true := by decide
  have hznone := fieldSearch_zone_none hcam hsq hit hsl hsl
  have htc := tailFrom_canonical hsl hsl hsl hcam hsq hit
  have hdeep : fieldSearch (f.reverse ++ []) ('/' :: (cam ++ '/' :: (sq ++ '/' :: it))) =
      some (f, ⟨'/', cam, '/', sq, '/', none, none, it, [], false⟩) := by
    rw [fieldSearch_cons, if_pos (by decide), hznone ('/' :: (f.reverse ++ []))]
    rw [opt_orElse_of_none _ rfl]
    simp [fieldArm, htc]
  have hsome : fieldSearch [] (f ++ '/' :: (cam ++ '/' :: (sq ++ '/' :: it))) =
      some (f, ⟨'/', cam, '/', sq, '/', none, none, it, [], false⟩) :=
    fieldSearch_descend [] _ hf hdeep
  simp only [afterUnit]
  rw [hsome]
  rfl

/-- Whether the string contains an occurrence of `PAN` followed by three
decimal digits, in the pattern's Unicode sense of `\d` (the `unit_id` token),
starting at some position. -/
def containsUnitId : List Char → Bool
  | [] => false
  | c :: t => (unitTok (c :: t)).isSome || containsUnitId t

theorem containsUnitId_of_suffix : ∀ {f l₂ : List Char}, l₂ <:+ f →
    (unitTok l₂).isSome = true → containsUnitId f = true := by
  intro f
  induction f with
  | nil =>
    intro l₂ hs h
    rw [List.suffix_nil.mp hs] at h
    simp [unitTok] at h
  | cons c t ih =>
    intro l₂ hs h
    rcases List.suffix_cons_iff.mp hs with rfl | hs'
    · simp [containsUnitId, h]
    · simp [containsUnitId, ih hs' h]

theorem suffix_head_mem {c : Char} {t f : List Char}
    (hs : (c :: t) <:+ f) : c ∈ f :=
  hs.subset (List.mem_cons_self c t)

theorem unitTok_none_suffix_of_no_P {y : List Char} (h : ∀ c ∈ y, c ≠ 'P') :
    ∀ l₂, l₂ <:+ y → l₂ ≠ [] → unitTok l₂ = none := by
  intro l₂ hs hne
  cases l₂ with
  | nil => exact absurd rfl hne
  | cons c t => exact unitTok_ne_P t (h c (suffix_head_mem hs))

theorem suffix_append_cases {x y l : List Char} (h : l <:+ x ++ y) :
    l <:+ y ∨ ∃ x₂, x₂ <:+ x ∧ x₂ ≠ [] ∧ l = x₂ ++ y := by
  induction x with
  | nil => left; simpa using h
  | cons c x' ih =>
    rw [List.cons_append] at h
    rcases List.suffix_cons_iff.mp h with rfl | h'
    · right; exact ⟨c :: x', List.suffix_refl _, by simp, by simp⟩
    · rcases ih h' with hl | ⟨x₂, hx2, hne, rfl⟩
      · exact Or.inl hl
      · exact Or.inr ⟨x₂, hx2.trans (List.suffix_cons c x'), hne, rfl⟩

theorem classTok3_cons (d e g : Char) (l : List Char) :
    classTok 3 ndDigit (d :: e :: g :: l) =
      if (ndDigit d && ndDigit e && ndDigit g) = true then some ([d, e, g], l)
      else none := by
  by_cases hd : ndDigit d = true <;> by_cases he : ndDigit e = true <;>
    by_cases hg : ndDigit g = true <;>
    simp [classTok, hd, he, hg]

/-- A `unit_id` occurrence inside a segment followed by a slash cannot use the
slash: whether a suffix of the segment starts a unit token is unaffected by
what follows the segment. -/
theorem noUnitIn_field {f r : List Char} (h : containsUnitId f = false) :
    ∀ l₂, l₂ <:+ f → l₂ ≠ [] → unitTok (l₂ ++ '/' :: r) = none := by
  intro l₂ hsuf hne
  have hslash : ndDigit '/' = false := by decide
  cases hEq : unitTok (l₂ ++ '/' :: r) with
  | none => rfl
  | some pr =>
    exfalso
    have hsome : (unitTok (l₂ ++ '/' :: r)).isSome = true := by rw [hEq]; rfl
    rcases l₂ with _ | ⟨a, l₂⟩
    · exact hne rfl
    rcases l₂ with _ | ⟨b, l₂⟩
    · rcases r with _ | ⟨c, r'⟩ <;> simp [unitTok] at hsome
    rcases l₂ with _ | ⟨c, l₂⟩
    · simp [unitTok] at hsome
    rcases l₂ with _ | ⟨d, l₂⟩
    · simp [unitTok, classTok, hslash] at hsome
    rcases l₂ with _ | ⟨e, l₂⟩
    · by_cases hd : ndDigit d = true <;>
        simp [unitTok, classTok, hslash, hd] at hsome
    rcases l₂ with _ | ⟨g, l₂⟩
    · by_cases hd : ndDigit d = true <;> by_cases he : ndDigit e = true <;>
        simp [unitTok, classTok, hslash, hd, he] at hsome
    · have hiff : (unitTok ((a :: b :: c :: d :: e :: g :: l₂) ++ '/' :: r)).isSome =
          (unitTok (a :: b :: c :: d :: e :: g :: l₂)).isSome := by
        simp only [List.cons_append]
        by_cases hc : (a = 'P' && b = 'A' && c = 'N') = true
        · simp only [unitTok, if_pos hc, classTok3_cons]
          by_cases hdig : (ndDigit d && ndDigit e && ndDigit g) = true <;>
            simp [hdig]
        · simp only [unitTok, if_neg hc]
      rw [hiff] at hsome
      rw [containsUnitId_of_suffix hsuf hsome] at h
      exact absurd h (by decide)

/-- The full `unit_id` string `PAN` + 3 digits. -/
def unitStr (u3 : List Char) : List Char := 'P' :: 'A' :: 'N' :: u3

theorem zone_chars {cam sq it : List Char} {s2 s3 : Char}
    (hcam : camShaped cam) (hsq : timeShaped sq) (hit : timeShaped it)
    (hs2 : sepc s2 = true) (hs3 : sepc s3 = true) :
    ∀ c ∈ cam ++ s2 :: (sq ++ s3 :: it), c ≠ 'P' ∧ c ≠ '\n' := by
  intro c hc
  simp only [List.mem_append, List.mem_cons] at hc
  rcases hc with h | rfl | h | rfl | h
  · exact ⟨(camShaped_chars hcam c h).2.2, (camShaped_chars hcam c h).2.1⟩
  · exact ⟨ne_P_of_sepc hs2, ne_nl_of_sepc hs2⟩
  · exact ⟨(timeShaped_chars hsq c h).2.2, (timeShaped_chars hsq c h).2.1⟩
  · exact ⟨ne_P_of_sepc hs3, ne_nl_of_sepc hs3⟩
  · exact ⟨(timeShaped_chars hit c h).2.2, (timeShaped_chars hit c h).2.1⟩

theorem PATH_MATCHER_canonical {u3 cam sq it : List Char}
    (hu : unit3 u3) (hcam : camShaped cam) (hsq : timeShaped sq) (hit : timeShaped it) :
    PATH_MATCHER (unitStr u3 ++ '/' :: (cam ++ '/' :: (sq ++ '/' :: it))) =
      some ⟨[], unitStr u3, false, [],
            ⟨'/', cam, '/', sq, '/', none, none, it, [], false⟩⟩ := by
  have hsl : sepc '/' = true := by decide
  have hzc := zone_chars hcam hsq hit hsl hsl
  have hrest : ∀ c ∈ ('A' :: 'N' :: (u3 ++ '/' :: (cam ++ '/' :: (sq ++ '/' :: it)))),
      c ≠ 'P' := by
    intro c hc
    simp only [List.mem_cons, List.mem_append] at hc
    rcases hc with rfl | rfl | h | rfl | h
    · decide
    · decide
    · exact ne_P_of_digit (hu.2 c h)
    · decide
    · have : c ∈ cam ++ '/' :: (sq ++ '/' :: it) := by
        simp only [List.mem_append, List.mem_cons]; tauto
      exact (hzc c this).1
  have hut : unitTok ('P' :: 'A' :: 'N' :: (u3 ++ '/' :: (cam ++ '/' :: (sq ++ '/' :: it)))) =
      some (unitStr u3, '/' :: (cam ++ '/' :: (sq ++ '/' :: it))) := by
    have := unitTok_append ('/' :: (cam ++ '/' :: (sq ++ '/' :: it))) hu
    simpa [unitStr] using this
  have hau := afterUnit_sep_zone hsl hsl hsl hcam hsq hit
  simp only [PATH_MATCHER, unitStr, List.cons_append]
  rw [preSearch_cons, if_pos (by decide)]
  rw [preSearch_none_of_no_P hrest ['P']]
  rw [opt_orElse_of_none _ rfl]
  simp [unitArm, hut, hau, unitStr]

theorem PATH_MATCHER_field {u3 f cam sq it : List Char}
    (hu : unit3 u3) (hfnl : ∀ c ∈ f, c ≠ '\n') (hfu : containsUnitId f = false)
    (hcam : camShaped cam) (hsq : timeShaped sq) (hit : timeShaped it) :
    PATH_MATCHER (unitStr u3 ++ '/' :: (f ++ '/' :: (cam ++ '/' :: (sq ++ '/' :: it)))) =
      some ⟨[], unitStr u3, true, f,
            ⟨'/', cam, '/', sq, '/', none, none, it, [], false⟩⟩ := by
  have hsl : sepc '/' = true := by decide
  have hzc := zone_chars hcam hsq hit hsl hsl
  have hzoneNoP : ∀ c ∈ ('/' :: (cam ++ '/' :: (sq ++ '/' :: it))), c ≠ 'P' := by
    intro c hc
    rcases List.mem_cons.mp hc with rfl | h
    · decide
    · exact (hzc c h).1
  -- every nonempty suffix of the part after the leading 'P' fails to start a unit token
  have hrest : ∀ l₂, l₂ <:+ (('A' :: 'N' :: u3 ++ ['/']) ++ f) ++
      ('/' :: (cam ++ '/' :: (sq ++ '/' :: it))) → l₂ ≠ [] → unitTok l₂ = none := by
    intro l₂ hs hne
    rcases suffix_append_cases hs with hy | ⟨x₂, hx2, hne2, rfl⟩
    · exact unitTok_none_suffix_of_no_P hzoneNoP l₂ hy hne
    · rcases suffix_append_cases hx2 with hf2 | ⟨a₂, ha2, hnea, rfl⟩
      · exact noUnitIn_field hfu x₂ hf2 hne2
      · rcases a₂ with _ | ⟨c0, a₂⟩
        · exact absurd rfl hnea
        · have hc0 : c0 ∈ 'A' :: 'N' :: u3 ++ ['/'] := suffix_head_mem ha2
          have hc0P : c0 ≠ 'P' := by
            simp only [List.cons_append, List.mem_cons, List.mem_append,
              List.mem_singleton] at hc0
            rcases hc0 with rfl | rfl | h | rfl | h
            · decide
            · decide
            · exact ne_P_of_digit (hu.2 c0 h)
            · decide
            · simp at h
          simpa using unitTok_ne_P _ hc0P
  have hut : unitTok ('P' :: 'A' :: 'N' :: (u3 ++ '/' :: (f ++ '/' :: (cam ++ '/' :: (sq ++ '/' :: it))))) =
      some (unitStr u3, '/' :: (f ++ '/' :: (cam ++ '/' :: (sq ++ '/' :: it)))) := by
    have := unitTok_append ('/' :: (f ++ '/' :: (cam ++ '/' :: (sq ++ '/' :: it)))) hu
    simpa [unitStr] using this
  have hau := afterUnit_field_zone hfnl hcam hsq hit
  simp only [PATH_MATCHER, unitStr, List.cons_append]
  rw [preSearch_cons, if_pos (by decide)]
  have hnone : preSearch ['P'] ('A' :: 'N' :: (u3 ++ '/' :: (f ++ '/' :: (cam ++ '/' :: (sq ++ '/' :: it))))) = none := by
    refine preSearch_none (fun l₂ hs hne => hrest l₂ ?_ hne) ['P']
    have heq : ('A' :: 'N' :: (u3 ++ '/' :: (f ++ '/' :: (cam ++ '/' :: (sq ++ '/' :: it))))) =
        (('A' :: 'N' :: u3 ++ ['/']) ++ f) ++ ('/' :: (cam ++ '/' :: (sq ++ '/' :: it))) := by
      simp
    rwa [heq] at hs
  rw [hnone]
  rw [opt_orElse_of_none _ rfl]
  simp [unitArm, hut, hau, unitStr]

theorem PATH_MATCHER_two_units {u3 u3' cam sq it : List Char}
    (hu : unit3 u3) (hu' : unit3 u3') (hcam : camShaped cam)
    (hsq : timeShaped sq) (hit : timeShaped it) :
    PATH_MATCHER (unitStr u3 ++ '/' :: (unitStr u3' ++ '/' :: (cam ++ '/' :: (sq ++ '/' :: it)))) =
      some ⟨unitStr u3 ++ ['/'], unitStr u3', false, [],
            ⟨'/', cam, '/', sq, '/', none, none, it, [], false⟩⟩ := by
  have hsl : sepc '/' = true := by decide
  have hzc := zone_chars hcam hsq hit hsl hsl
  have hrest : ∀ c ∈ ('A' :: 'N' :: (u3' ++ '/' :: (cam ++ '/' :: (sq ++ '/' :: it)))),
      c ≠ 'P' := by
    intro c hc
    simp only [List.mem_cons, List.mem_append] at hc
    rcases hc with rfl | rfl | h | rfl | h
    · decide
    · decide
    · exact ne_P_of_digit (hu'.2 c h)
    · decide
    · have : c ∈ cam ++ '/' :: (sq ++ '/' :: it) := by
        simp only [List.mem_append, List.mem_cons]; tauto
      exact (hzc c this).1
  have hut : unitTok ('P' :: 'A' :: 'N' :: (u3' ++ '/' :: (cam ++ '/' :: (sq ++ '/' :: it)))) =
      some (unitStr u3', '/' :: (cam ++ '/' :: (sq ++ '/' :: it))) := by
    have := unitTok_append ('/' :: (cam ++ '/' :: (sq ++ '/' :: it))) hu'
    simpa [unitStr] using this
  have hau := afterUnit_sep_zone hsl hsl hsl hcam hsq hit
  have hdeep : preSearch ((unitStr u3 ++ ['/']).reverse ++ [])
      ('P' :: 'A' :: 'N' :: (u3' ++ '/' :: (cam ++ '/' :: (sq ++ '/' :: it)))) =
      some ⟨unitStr u3 ++ ['/'], unitStr u3', false, [],
            ⟨'/', cam, '/', sq, '/', none, none, it, [], false⟩⟩ := by
    rw [preSearch_cons, if_pos (by decide)]
    rw [preSearch_none_of_no_P hrest _]
    rw [opt_orElse_of_none _ rfl]
    simp [unitArm, hut, hau]
  have hnl : ∀ c ∈ unitStr u3 ++ ['/'], c ≠ '\n' := by
    intro c hc
    simp only [unitStr, List.cons_append, List.mem_cons, List.mem_append,
      List.mem_singleton] at hc
    rcases hc with rfl | rfl | rfl | h | rfl | h
    · decide
    · decide
    · decide
    · exact ne_nl_of_digit (hu.2 c h)
    · decide
    · simp at h
  have hres := preSearch_descend [] _ hnl hdeep
  have heq : (unitStr u3 ++ ['/']) ++
      ('P' :: 'A' :: 'N' :: (u3' ++ '/' :: (cam ++ '/' :: (sq ++ '/' :: it)))) =
      unitStr u3 ++ '/' :: (unitStr u3' ++ '/' :: (cam ++ '/' :: (sq ++ '/' :: it))) := by
    simp [unitStr]
  rw [heq] at hres
  exact hres

theorem PATH_MATCHER_token {u3 f cam sq it : List Char}
    (hu : unit3 u3) (hfnl : ∀ c ∈ f, c ≠ '\n')
    (hcam : camShaped cam) (hsq : timeShaped sq) (hit : timeShaped it) :
    PATH_MATCHER (unitStr u3 ++ '/' :: (f ++ '/' :: (cam ++ '/' :: (sq ++ '/' ::
        (unitStr u3 ++ '_' :: (cam ++ '_' :: (sq ++ '_' :: it))))))) =
      some ⟨unitStr u3 ++ '/' :: (f ++ '/' :: (cam ++ '/' :: (sq ++ ['/']))), unitStr u3,
            false, [], ⟨'_', cam, '_', sq, '_', none, none, it, [], false⟩⟩ := by
  have hus : sepc '_' = true := by decide
  have hzc := zone_chars hcam hsq hit hus hus
  have hrest : ∀ c ∈ ('A' :: 'N' :: (u3 ++ '_' :: (cam ++ '_' :: (sq ++ '_' :: it)))),
      c ≠ 'P' := by
    intro c hc
    simp only [List.mem_cons, List.mem_append] at hc
    rcases hc with rfl | rfl | h | rfl | h
    · decide
    · decide
    · exact ne_P_of_digit (hu.2 c h)
    · decide
    · have : c ∈ cam ++ '_' :: (sq ++ '_' :: it) := by
        simp only [List.mem_append, List.mem_cons]; tauto
      exact (hzc c this).1
  have hut : unitTok ('P' :: 'A' :: 'N' :: (u3 ++ '_' :: (cam ++ '_' :: (sq ++ '_' :: it)))) =
      some (unitStr u3, '_' :: (cam ++ '_' :: (sq ++ '_' :: it))) := by
    have := unitTok_append ('_' :: (cam ++ '_' :: (sq ++ '_' :: it))) hu
    simpa [unitStr] using this
  have hau := afterUnit_sep_zone hus hus hus hcam hsq hit
  have hdeep : preSearch ((unitStr u3 ++ '/' :: (f ++ '/' :: (cam ++ '/' :: (sq ++ ['/'])))).reverse ++ [])
      ('P' :: 'A' :: 'N' :: (u3 ++ '_' :: (cam ++ '_' :: (sq ++ '_' :: it)))) =
      some ⟨unitStr u3 ++ '/' :: (f ++ '/' :: (cam ++ '/' :: (sq ++ ['/']))), unitStr u3,
            false, [], ⟨'_', cam, '_', sq, '_', none, none, it, [], false⟩⟩ := by
    rw [preSearch_cons, if_pos (by decide)]
    rw [preSearch_none_of_no_P hrest _]
    rw [opt_orElse_of_none _ rfl]
    simp [unitArm, hut, hau]
  have hnl : ∀ c ∈ unitStr u3 ++ '/' :: (f ++ '/' :: (cam ++ '/' :: (sq ++ ['/']))),
      c ≠ '\n' := by
    intro c hc
    simp only [unitStr, List.cons_append, List.mem_cons, List.mem_append,
      List.mem_singleton] at hc
    rcases hc with rfl | rfl | rfl | h | rfl | h | rfl | h | rfl | h | rfl | h
    · decide
    · decide
    · decide
    · exact ne_nl_of_digit (hu.2 c h)
    · decide
    · exact hfnl c h
    · decide
    · exact (camShaped_chars hcam c h).2.1
    · decide
    · exact (timeShaped_chars hsq c h).2.1
    · decide
    · simp at h
  have hres := preSearch_descend [] _ hnl hdeep
  have heq : (unitStr u3 ++ '/' :: (f ++ '/' :: (cam ++ '/' :: (sq ++ ['/'])))) ++
      ('P' :: 'A' :: 'N' :: (u3 ++ '_' :: (cam ++ '_' :: (sq ++ '_' :: it)))) =
      unitStr u3 ++ '/' :: (f ++ '/' :: (cam ++ '/' :: (sq ++ '/' ::
        (unitStr u3 ++ '_' :: (cam ++ '_' :: (sq ++ '_' :: it)))))) := by
    simp [unitStr]
  rw [heq] at hres
  exact hres

theorem ofNat_digit {m : Nat} (h : m < 10) : (Char.ofNat (48 + m)).isDigit = true := by
  interval_cases m <;> decide

theorem isDigit_ofNat_mod (n : Nat) : (Char.ofNat (48 + n % 10)).isDigit = true :=
  ofNat_digit (Nat.mod_lt n (by norm_num))

theorem digitVal_ofNat {m : Nat} (h : m < 10) : digitVal (Char.ofNat (48 + m)) = m := by
  interval_cases m <;> decide

theorem digitVal_ofNat_mod (n : Nat) : digitVal (Char.ofNat (48 + n % 10)) = n % 10 :=
  digitVal_ofNat (Nat.mod_lt n (by norm_num))

theorem daysInMonth_le (y m : Nat) : daysInMonth y m ≤ 31 := by
  unfold daysInMonth
  split_ifs <;> omega

theorem flatten_timeShaped (t : TimeDT) : timeShaped (flatten_time t) := by
  refine ⟨pad4 t.year ++ pad2 t.month ++ pad2 t.day,
    pad2 t.hour ++ pad2 t.minute ++ pad2 t.second, ?_, ?_, ?_, ?_, ?_⟩
  · simp [flatten_time]
  · simp [pad4, pad2]
  · simp [pad2]
  · intro c hc
    simp only [pad4, pad2, List.mem_append, List.mem_cons, List.not_mem_nil,
      or_false] at hc
    rcases hc with ((rfl | rfl | rfl | rfl) | (rfl | rfl)) | (rfl | rfl) <;>
      exact isDigit_ofNat_mod _
  · intro c hc
    simp only [pad2, List.mem_append, List.mem_cons, List.not_mem_nil,
      or_false] at hc
    rcases hc with ((rfl | rfl) | (rfl | rfl)) | (rfl | rfl) <;>
      exact isDigit_ofNat_mod _

theorem digitsVal4_eq {y : Nat} (hy : y < 10000) :
    digitsVal [Char.ofNat (48 + y / 1000 % 10), Char.ofNat (48 + y / 100 % 10),
      Char.ofNat (48 + y / 10 % 10), Char.ofNat (48 + y % 10)] = y := by
  simp only [digitsVal, List.foldl_cons, List.foldl_nil, digitVal_ofNat_mod]
  have q1 := Nat.div_add_mod y 10
  have q2 := Nat.div_add_mod (y / 10) 10
  have q3 := Nat.div_add_mod (y / 100) 10
  have r2 : y / 10 / 10 = y / 100 := by
    rw [Nat.div_div_eq_div_mul]
  have r3 : y / 100 / 10 = y / 1000 := by
    rw [Nat.div_div_eq_div_mul]
  have hle : y / 1000 ≤ 9 := by
    calc y / 1000 ≤ 9999 / 1000 := Nat.div_le_div_right (by omega)
    _ = 9 := by norm_num
  have m1 : y / 1000 % 10 = y / 1000 := Nat.mod_eq_of_lt (by omega)
  rw [r2] at q2
  rw [r3] at q3
  rw [m1]
  omega

theorem digitsVal2_eq {n : Nat} (hn : n < 100) :
    digitsVal [Char.ofNat (48 + n / 10 % 10), Char.ofNat (48 + n % 10)] = n := by
  simp only [digitsVal, List.foldl_cons, List.foldl_nil, digitVal_ofNat_mod]
  have q1 := Nat.div_add_mod n 10
  have hle : n / 10 ≤ 9 := by
    calc n / 10 ≤ 99 / 10 := Nat.div_le_div_right (by omega)
    _ = 9 := by norm_num
  have m1 : n / 10 % 10 = n / 10 := Nat.mod_eq_of_lt (by omega)
  rw [m1]
  omega

theorem parseDate15_flatten {t : TimeDT} (h : validDT t = true) :
    parseDate15 (flatten_time t) = some t := by
  obtain ⟨y, mo, d, hh, mi, ss⟩ := t
  have hb := h
  simp only [validDT, Bool.and_eq_true, decide_eq_true_eq] at hb
  obtain ⟨⟨⟨⟨⟨⟨⟨⟨hy1, hy2⟩, hm1⟩, hm2⟩, hd1⟩, hd2⟩, hh7⟩, hi8⟩, hs9⟩ := hb
  have hd31 : d ≤ 31 := le_trans hd2 (daysInMonth_le y mo)
  simp only [flatten_time, pad4, pad2, List.cons_append, List.nil_append]
  simp only [parseDate15]
  rw [if_pos (by simp [List.all_cons, List.all_nil, isDigit_ofNat_mod])]
  rw [digitsVal4_eq (by omega : y < 10000), digitsVal2_eq (by omega : mo < 100),
    digitsVal2_eq (by omega : d < 100), digitsVal2_eq (by omega : hh < 100),
    digitsVal2_eq (by omega : mi < 100), digitsVal2_eq (by omega : ss < 100)]
  rw [if_pos h]

theorem fromPath_canonical {u3 cam : List Char} {ts ti : TimeDT}
    (hu : unit3 u3) (hcam : camShaped cam)
    (hts : validDT ts = true) (hti : validDT ti = true) :
    ImagePathInfo.fromPath
        (unitStr u3 ++ '/' :: (cam ++ '/' :: (flatten_time ts ++ '/' :: flatten_time ti))) =
      .ok ⟨some (unitStr u3), some cam, some [], some ts, some ti,
           some (unitStr u3 ++ '/' :: (cam ++ '/' :: (flatten_time ts ++ '/' :: flatten_time ti)))⟩ := by
  have hm := PATH_MATCHER_canonical hu hcam (flatten_timeShaped ts) (flatten_timeShaped ti)
  simp [ImagePathInfo.fromPath, ImagePathInfo.make, hm, parseDate15_flatten hts,
    parseDate15_flatten hti]

theorem fromPath_field {u3 f cam : List Char} {ts ti : TimeDT}
    (hu : unit3 u3) (hfnl : ∀ c ∈ f, c ≠ '\n') (hfu : containsUnitId f = false)
    (hcam : camShaped cam) (hts : validDT ts = true) (hti : validDT ti = true) :
    ImagePathInfo.fromPath
        (unitStr u3 ++ '/' :: (f ++ '/' :: (cam ++ '/' :: (flatten_time ts ++ '/' :: flatten_time ti)))) =
      .ok ⟨some (unitStr u3), some cam, some f, some ts, some ti,
           some (unitStr u3 ++ '/' :: (f ++ '/' :: (cam ++ '/' :: (flatten_time ts ++ '/' :: flatten_time ti))))⟩ := by
  have hm := PATH_MATCHER_field hu hfnl hfu hcam (flatten_timeShaped ts)
    (flatten_timeShaped ti)
  simp [ImagePathInfo.fromPath, ImagePathInfo.make, hm, parseDate15_flatten hts,
    parseDate15_flatten hti]

theorem fromPath_two_units {u3 u3' cam : List Char} {ts ti : TimeDT}
    (hu : unit3 u3) (hu' : unit3 u3') (hcam : camShaped cam)
    (hts : validDT ts = true) (hti : validDT ti = true) :
    ImagePathInfo.fromPath
        (unitStr u3 ++ '/' :: (unitStr u3' ++ '/' :: (cam ++ '/' :: (flatten_time ts ++ '/' :: flatten_time ti)))) =
      .ok ⟨some (unitStr u3'), some cam, some [], some ts, some ti,
           some (unitStr u3 ++ '/' :: (unitStr u3' ++ '/' :: (cam ++ '/' :: (flatten_time ts ++ '/' :: flatten_time ti))))⟩ := by
  have hm := PATH_MATCHER_two_units hu hu' hcam (flatten_timeShaped ts)
    (flatten_timeShaped ti)
  simp [ImagePathInfo.fromPath, ImagePathInfo.make, hm, parseDate15_flatten hts,
    parseDate15_flatten hti]

theorem fromPath_token {u3 f cam : List Char} {ts ti : TimeDT}
    (hu : unit3 u3) (hfnl : ∀ c ∈ f, c ≠ '\n')
    (hcam : camShaped cam) (hts : validDT ts = true) (hti : validDT ti = true) :
    ImagePathInfo.fromPath
        (unitStr u3 ++ '/' :: (f ++ '/' :: (cam ++ '/' :: (flatten_time ts ++ '/' ::
          (unitStr u3 ++ '_' :: (cam ++ '_' :: (flatten_time ts ++ '_' :: flatten_time ti))))))) =
      .ok ⟨some (unitStr u3), some cam, some [], some ts, some ti,
           some (unitStr u3 ++ '/' :: (f ++ '/' :: (cam ++ '/' :: (flatten_time ts ++ '/' ::
             (unitStr u3 ++ '_' :: (cam ++ '_' :: (flatten_time ts ++ '_' :: flatten_time ti)))))))⟩ := by
  have hm := PATH_MATCHER_token hu hfnl hcam (flatten_timeShaped ts)
    (flatten_timeShaped ti)
  simp [ImagePathInfo.fromPath, ImagePathInfo.make, hm, parseDate15_flatten hts,
    parseDate15_flatten hti]

theorem camTok_sound {l cm r : List Char} (h : camTok l = some (cm, r)) :
    l = cm ++ r :=
  (classTok_sound h).1

theorem fullTok_sound {l ft r : List Char} (h : fullTok l = some (ft, r)) :
    l = ft ++ r := by
  simp only [fullTok] at h
  cases hu : unitTok l with
  | none => rw [hu] at h; simp at h
  | some pru =>
    obtain ⟨u, r1⟩ := pru
    rw [hu] at h
    have hl1 := (unitTok_sound hu).1
    cases r1 with
    | nil => simp at h
    | cons c1 r2 =>
      simp only at h
      by_cases hc1 : c1 = '_'
      · rw [if_pos hc1] at h
        cases hcm : camTok r2 with
        | none => rw [hcm] at h; simp at h
        | some prc =>
          obtain ⟨cm, r3⟩ := prc
          rw [hcm] at h
          have hl2 := camTok_sound hcm
          cases r3 with
          | nil => simp at h
          | cons c2 r4 =>
            simp only at h
            by_cases hc2 : c2 = '_'
            · rw [if_pos hc2] at h
              cases htt : timeTok r4 with
              | none => rw [htt] at h; simp at h
              | some prt =>
                obtain ⟨t, r5⟩ := prt
                rw [htt] at h
                have hl3 := (timeTok_sound htt).1
                cases r5 with
                | nil => simp at h
                | cons c3 r6 =>
                  simp only at h
                  by_cases hc3 : c3 = '_'
                  · rw [if_pos hc3] at h
                    simp only [Option.some.injEq, Prod.mk.injEq] at h
                    obtain ⟨rfl, rfl⟩ := h
                    rw [hl1, hl2, hl3]
                    simp
                  · rw [if_neg hc3] at h; simp at h
            · rw [if_neg hc2] at h; simp at h
      · rw [if_neg hc1] at h; simp at h

theorem imgAfter_inv {l it po : List Char} {b : Bool}
    (h : imgAfter l = some (it, po, b)) : ∃ rp, l = it ++ rp ∧ timeShaped it := by
  cases ht : timeTok l with
  | none => simp [imgAfter, ht] at h
  | some prt =>
    obtain ⟨t, r⟩ := prt
    cases hp : postTok r with
    | none => simp [imgAfter, ht, hp] at h
    | some prp =>
      obtain ⟨p, b'⟩ := prp
      simp only [imgAfter, ht, hp, Option.some.injEq, Prod.mk.injEq] at h
      obtain ⟨rfl, rfl, rfl⟩ := h
      exact ⟨r, (timeTok_sound ht).1, (timeTok_sound ht).2⟩

theorem sepImgAfter_inv {l : List Char} {s4 : Option Char} {it po : List Char} {b : Bool}
    (h : sepImgAfter l = some (s4, it, po, b)) :
    ∃ w rp, l = w ++ it ++ rp ∧ timeShaped it := by
  rcases opt_orElse_inv h with h1 | ⟨_, h2⟩
  · cases l with
    | nil => simp at h1
    | cons c r =>
      by_cases hc : sepc c = true
      · cases hi : imgAfter r with
        | none => simp [hc, hi] at h1
        | some x =>
          obtain ⟨x1, x2, x3⟩ := x
          simp only [hc, if_true, hi, Option.map_some', Option.some.injEq,
            Prod.mk.injEq] at h1
          obtain ⟨rfl, rfl, rfl, rfl⟩ := h1
          obtain ⟨rp, rfl, hsh⟩ := imgAfter_inv hi
          exact ⟨[c], rp, by simp, hsh⟩
      · simp [hc] at h1
  · cases hi : imgAfter l with
    | none => simp [hi] at h2
    | some x =>
      obtain ⟨x1, x2, x3⟩ := x
      simp only [hi, Option.map_some', Option.some.injEq, Prod.mk.injEq] at h2
      obtain ⟨rfl, rfl, rfl, rfl⟩ := h2
      obtain ⟨rp, rfl, hsh⟩ := imgAfter_inv hi
      exact ⟨[], rp, by simp, hsh⟩

theorem fullAfter_inv {l : List Char} {fid : Option (List Char)} {s4 : Option Char}
    {it po : List Char} {b : Bool} (h : fullAfter l = some (fid, s4, it, po, b)) :
    ∃ w rp, l = w ++ it ++ rp ∧ timeShaped it := by
  rcases opt_orElse_inv h with h1 | ⟨_, h2⟩
  · cases hf : fullTok l with
    | none => simp [hf] at h1
    | some prf =>
      obtain ⟨ft, r⟩ := prf
      cases hs : sepImgAfter r with
      | none => simp [hf, hs] at h1
      | some x =>
        obtain ⟨x1, x2, x3, x4⟩ := x
        simp only [hf, hs, Option.map_some', Option.some.injEq, Prod.mk.injEq] at h1
        obtain ⟨rfl, rfl, rfl, rfl, rfl⟩ := h1
        obtain ⟨w, rp, rfl, hsh⟩ := sepImgAfter_inv hs
        exact ⟨ft ++ w, rp, by rw [fullTok_sound hf]; simp, hsh⟩
  · cases hs : sepImgAfter l with
    | none => simp [hs] at h2
    | some x =>
      obtain ⟨x1, x2, x3, x4⟩ := x
      simp only [hs, Option.map_some', Option.some.injEq, Prod.mk.injEq] at h2
      obtain ⟨rfl, rfl, rfl, rfl, rfl⟩ := h2
      exact sepImgAfter_inv hs

theorem tailFrom_inv {l : List Char} {t : TailGroups} (h : tailFrom l = some t) :
    ∃ a b2, l = a ++ t.sequence_time ++ b2 ∧ timeShaped t.sequence_time ∧
      ∃ w rp, b2 = w ++ t.image_time ++ rp ∧ timeShaped t.image_time := by
  cases l with
  | nil => simp [tailFrom] at h
  | cons c1 r1 =>
    by_cases hc1 : sepc c1 = true
    · cases hcm : camTok r1 with
      | none => simp [tailFrom, hc1, hcm] at h
      | some prc =>
        obtain ⟨cam, r2⟩ := prc
        cases r2 with
        | nil => simp [tailFrom, hc1, hcm] at h
        | cons c2 r3 =>
          by_cases hc2 : sepc c2 = true
          · cases htt : timeTok r3 with
            | none => simp [tailFrom, hc1, hcm, hc2, htt] at h
            | some prt =>
              obtain ⟨sq, r4⟩ := prt
              cases r4 with
              | nil => simp [tailFrom, hc1, hcm, hc2, htt] at h
              | cons c3 r5 =>
                by_cases hc3 : sepc c3 = true
                · cases hfa : fullAfter r5 with
                  | none => simp [tailFrom, hc1, hcm, hc2, htt, hc3, hfa] at h
                  | some x =>
                    obtain ⟨fid, s4, it, po, b⟩ := x
                    simp only [tailFrom, hc1, hcm, hc2, htt, hc3, hfa, if_true,
                      Option.some.injEq] at h
                    subst h
                    obtain ⟨w, rp, rfl, hsh⟩ := fullAfter_inv hfa
                    refine ⟨c1 :: cam ++ [c2], c3 :: (w ++ it ++ rp), ?_,
                      (timeTok_sound htt).2, c3 :: w, rp, by simp, hsh⟩
                    rw [camTok_sound hcm, (timeTok_sound htt).1]
                    simp
                · simp [tailFrom, hc1, hcm, hc2, htt, hc3] at h
          · simp [tailFrom, hc1, hcm, hc2] at h
    · simp [tailFrom, hc1] at h

theorem fieldSearch_inv : ∀ {acc l : List Char} {f : List Char} {t : TailGroups},
    fieldSearch acc l = some (f, t) → ∃ l₁ l₂, l = l₁ ++ l₂ ∧ tailFrom l₂ = some t := by
  intro acc l
  induction l generalizing acc with
  | nil =>
    intro f t h
    simp [fieldSearch_nil] at h
  | cons c r ih =>
    intro f t h
    rw [fieldSearch_cons] at h
    rcases opt_orElse_inv h with h1 | ⟨_, h2⟩
    · by_cases hc : c ≠ '\n'
      · rw [if_pos hc] at h1
        obtain ⟨l₁, l₂, rfl, ht⟩ := ih h1
        exact ⟨c :: l₁, l₂, rfl, ht⟩
      · rw [if_neg hc] at h1; simp at h1
    · cases ht : tailFrom (c :: r) with
      | none => simp [fieldArm, ht] at h2
      | some t' =>
        simp only [fieldArm, ht, Option.map_some', Option.some.injEq,
          Prod.mk.injEq] at h2
        obtain ⟨rfl, rfl⟩ := h2
        exact ⟨[], c :: r, rfl, ht⟩

theorem afterUnit_inv {l : List Char} {b : Bool} {f : List Char} {t : TailGroups}
    (h : afterUnit l = some (b, f, t)) :
    ∃ l₁ l₂, l = l₁ ++ l₂ ∧ tailFrom l₂ = some t := by
  rcases opt_orElse_inv h with h1 | ⟨_, h2⟩
  · cases l with
    | nil => simp at h1
    | cons c r =>
      by_cases hc : c = '/'
      · cases hfs : fieldSearch [] r with
        | none => simp [hc, hfs] at h1
        | some x =>
          obtain ⟨x1, x2⟩ := x
          simp only [hc, if_true, hfs, Option.map_some', Option.some.injEq,
            Prod.mk.injEq] at h1
          obtain ⟨rfl, rfl, rfl⟩ := h1
          obtain ⟨l₁, l₂, rfl, ht⟩ := fieldSearch_inv hfs
          exact ⟨c :: l₁, l₂, rfl, ht⟩
      · simp [hc] at h1
  · cases hfs : fieldSearch [] l with
    | none => simp [hfs] at h2
    | some x =>
      obtain ⟨x1, x2⟩ := x
      simp only [hfs, Option.map_some', Option.some.injEq, Prod.mk.injEq] at h2
      obtain ⟨rfl, rfl, rfl⟩ := h2
      exact fieldSearch_inv hfs

theorem preSearch_inv : ∀ {acc l : List Char} {m : MatchGroups},
    preSearch acc l = some m → ∃ l₁ l₂ r, l = l₁ ++ l₂ ∧
      unitTok l₂ = some (m.unit_id, r) ∧
      afterUnit r = some (m.slash1, m.field_name, m.tail) := by
  intro acc l
  induction l generalizing acc with
  | nil =>
    intro m h
    simp [preSearch_nil] at h
  | cons c r ih =>
    intro m h
    rw [preSearch_cons] at h
    rcases opt_orElse_inv h with h1 | ⟨_, h2⟩
    · by_cases hc : c ≠ '\n'
      · rw [if_pos hc] at h1
        obtain ⟨l₁, l₂, rr, rfl, hut, hau⟩ := ih h1
        exact ⟨c :: l₁, l₂, rr, rfl, hut, hau⟩
      · rw [if_neg hc] at h1; simp at h1
    · cases hut : unitTok (c :: r) with
      | none => simp [unitArm, hut] at h2
      | some pru =>
        obtain ⟨u, rr⟩ := pru
        cases hau : afterUnit rr with
        | none => simp [unitArm, hut, hau] at h2
        | some x =>
          obtain ⟨x1, x2, x3⟩ := x
          simp only [unitArm, hut, hau, Option.map_some', Option.some.injEq] at h2
          subst h2
          exact ⟨[], c :: r, rr, rfl, hut, hau⟩

/-- Whether the string contains a `[0-9]{8}T[0-9]{6}`-shaped segment starting
at some position. -/
def containsTime : List Char → Bool
  | [] => false
  | c :: r => (timeTok (c :: r)).isSome || containsTime r

/-- Whether the string contains two `YYYYMMDDTHHMMSS`-shaped segments, the
second starting after the end of the first. -/
def twoTimes : List Char → Bool
  | [] => false
  | c :: r =>
    (match timeTok (c :: r) with
     | some (_, rest) => containsTime rest
     | none => false) || twoTimes r

/-- Whether the string contains a `PAN\d{3}` token (with `\d` a Unicode
decimal digit) followed (anywhere after it) by two timestamp-shaped
segments. -/
def afterUnitTwoTimes : List Char → Bool
  | [] => false
  | c :: r =>
    (match unitTok (c :: r) with
     | some (_, rest) => twoTimes rest
     | none => false) || afterUnitTwoTimes r

theorem containsTime_append (x : List Char) {l₂ : List Char} (h : (timeTok l₂).isSome = true) :
    containsTime (x ++ l₂) = true := by
  induction x with
  | nil =>
    cases l₂ with
    | nil => simp [timeTok, classTok] at h
    | cons c r => simp [containsTime, h]
  | cons c x' ih => simp [containsTime, ih]

theorem twoTimes_append (x : List Char) {t b2 : List Char} (ht : timeShaped t)
    (hb : containsTime b2 = true) : twoTimes (x ++ (t ++ b2)) = true := by
  induction x with
  | nil =>
    simp only [List.nil_append]
    obtain ⟨c, t', rfl, _⟩ := timeShaped_head ht
    have htok : timeTok ((c :: t') ++ b2) = some (c :: t', b2) := timeTok_append b2 ht
    rw [List.cons_append] at htok
    simp [twoTimes, htok, hb]
  | cons c x' ih => simp [twoTimes, ih]

theorem afterUnitTwoTimes_append {x l₂ u r : List Char}
    (hu : unitTok l₂ = some (u, r)) (h2 : twoTimes r = true) :
    afterUnitTwoTimes (x ++ l₂) = true := by
  induction x with
  | nil =>
    simp only [List.nil_append]
    cases l₂ with
    | nil => simp [unitTok] at hu
    | cons c t => simp [afterUnitTwoTimes, hu, h2]
  | cons c x' ih => simp [afterUnitTwoTimes, ih]

theorem PATH_MATCHER_two_times {s : List Char} {m : MatchGroups}
    (h : PATH_MATCHER s = some m) : afterUnitTwoTimes s = true := by
  obtain ⟨l₁, l₂, r, rfl, hut, hau⟩ := preSearch_inv h
  obtain ⟨r₁, r₂, rfl, htail⟩ := afterUnit_inv hau
  obtain ⟨a, b2, hb2eq, hsq, w, rp, hb2, hit⟩ := tailFrom_inv htail
  refine afterUnitTwoTimes_append hut ?_
  have hcb : containsTime b2 = true := by
    rw [hb2]
    have himg : (timeTok (m.tail.image_time ++ rp)).isSome = true := by
      rw [timeTok_append rp hit]; rfl
    have := containsTime_append w himg
    rw [show w ++ m.tail.image_time ++ rp = w ++ (m.tail.image_time ++ rp) by simp]
    exact this
  have := twoTimes_append (r₁ ++ a) hsq hcb
  rw [hb2eq]
  rw [show r₁ ++ (a ++ m.tail.sequence_time ++ b2) =
    (r₁ ++ a) ++ (m.tail.sequence_time ++ b2) by simp]
  exact this

instance (u3 : List Char) : Decidable (unit3 u3) := by
  unfold unit3; infer_instance

instance (cam : List Char) : Decidable (camShaped cam) := by
  unfold camShaped; infer_instance

/-- The first occurrence of a `PAN\d{3}` token in the string, scanning left
to right. -/
def firstUnitId : List Char → Option (List Char)
  | [] => none
  | c :: t =>
    match unitTok (c :: t) with
    | some (u, _) => some u
    | none => firstUnitId t

set_option maxRecDepth 10000 in
/-- `\d` fidelity check: a unit token whose digits are Arabic-Indic decimal
digits (category `Nd`) is matched, exactly as the source regex matches it. -/
theorem PATH_MATCHER_nd_accepts :
    PATH_MATCHER ("PAN٣٤٥/358d0f/20180824T035917/20180824T040118".data) =
      some ⟨[], "PAN٣٤٥".data, false, [],
            ⟨'/', "358d0f".data, '/', "20180824T035917".data, '/', none, none,
             "20180824T040118".data, [], false⟩⟩ := by decide

set_option maxRecDepth 10000 in
/-- `\d` fidelity check: the greedy `pre_info` commits to the rightmost
viable unit token even when its digits are non-ASCII decimal digits. -/
theorem PATH_MATCHER_nd_rebind :
    PATH_MATCHER ("PAN012/PAN٣٤٥/358d0f/20180824T035917/20180824T040118".data) =
      some ⟨"PAN012/".data, "PAN٣٤٥".data, false, [],
            ⟨'/', "358d0f".data, '/', "20180824T035917".data, '/', none, none,
             "20180824T040118".data, [], false⟩⟩ := by decide

/-- C1: Round-trip on canonical paths: for every unit id `PAN` + 3 digits,
every camera id of exactly 6 characters in `[0-9a-gA-G]`, and every pair of
whole-second UTC timestamps `ts ≤ ti`, building the canonical path
`unit_id/camera_id/flatten(ts)/flatten(ti)` and constructing
`ImagePathInfo(path=...)` from it succeeds and returns exactly those
`unit_id`, `camera_id`, `sequence_time` and `image_time`. -/
theorem c1_round_trip (u3 cam : List Char) (ts ti : TimeDT)
    (hu : unit3 u3) (hcam : camShaped cam)
    (hts : validDT ts = true) (hti : validDT ti = true) (hle : dtLe ts ti) :
    ImagePathInfo.fromPath
        (unitStr u3 ++ '/' :: (cam ++ '/' :: (flatten_time ts ++ '/' :: flatten_time ti))) =
      .ok { unit_id := some (unitStr u3), camera_id := some cam,
            field_name := some [], sequence_time := some ts, image_time := some ti,
            path := some (unitStr u3 ++ '/' ::
              (cam ++ '/' :: (flatten_time ts ++ '/' :: flatten_time ti))) } :=
  fromPath_canonical hu hcam hts hti

/-- Witness for C1 at `PAN012/358d0f/20180824T035917/20180824T040118`. -/
theorem c1_round_trip_witness :
    ImagePathInfo.fromPath
        (unitStr ['0', '1', '2'] ++ '/' :: (['3', '5', '8', 'd', '0', 'f'] ++ '/' ::
          (flatten_time ⟨2018, 8, 24, 3, 59, 17⟩ ++ '/' ::
            flatten_time ⟨2018, 8, 24, 4, 1, 18⟩))) =
      .ok { unit_id := some (unitStr ['0', '1', '2']),
            camera_id := some ['3', '5', '8', 'd', '0', 'f'],
            field_name := some [],
            sequence_time := some ⟨2018, 8, 24, 3, 59, 17⟩,
            image_time := some ⟨2018, 8, 24, 4, 1, 18⟩,
            path := some (unitStr ['0', '1', '2'] ++ '/' ::
              (['3', '5', '8', 'd', '0', 'f'] ++ '/' ::
                (flatten_time ⟨2018, 8, 24, 3, 59, 17⟩ ++ '/' ::
                  flatten_time ⟨2018, 8, 24, 4, 1, 18⟩))) } :=
  c1_round_trip ['0', '1', '2'] ['3', '5', '8', 'd', '0', 'f']
    ⟨2018, 8, 24, 3, 59, 17⟩ ⟨2018, 8, 24, 4, 1, 18⟩
    (by decide) (by decide) (by decide) (by decide) (by decide)

theorem make_some_path_populated {u c f : Option (List Char)} {st it : Option TimeDT}
    {p : List Char} {i : ImagePathInfo}
    (h : ImagePathInfo.make u c f st it (some p) = .ok i) :
    i.unit_id.isSome = true ∧ i.camera_id.isSome = true ∧
      i.sequence_time.isSome = true ∧ i.image_time.isSome = true := by
  cases hm : PATH_MATCHER p with
  | none => simp [ImagePathInfo.make, hm] at h
  | some m =>
    cases hs : parseDate15 m.tail.sequence_time with
    | none => simp [ImagePathInfo.make, hm, hs] at h
    | some ts =>
      cases hi : parseDate15 m.tail.image_time with
      | none => simp [ImagePathInfo.make, hm, hs, hi] at h
      | some ti =>
        simp only [ImagePathInfo.make, hm, hs, hi, Except.ok.injEq] at h
        subst h
        exact ⟨rfl, rfl, rfl, rfl⟩

/-- C2 counterexample: calling the constructor with no arguments at all
succeeds and returns an object whose `unit_id` (and every other field) is
`None`, so construction can return a completely unpopulated object. -/
theorem c2_counterexample :
    ImagePathInfo.make none none none none none none =
      .ok { unit_id := none, camera_id := none, field_name := none,
            sequence_time := none, image_time := none, path := none } ∧
    ({ unit_id := none, camera_id := none, field_name := none,
       sequence_time := none, image_time := none, path := none } :
        ImagePathInfo).unit_id = none :=
  ⟨rfl, rfl⟩

/-- C2 amended: construction through a path or through a FITS header always
populates `unit_id`, `camera_id`, `sequence_time` and `image_time`; explicit
construction without a path returns exactly the supplied field values (which
may be `None`), never a partially parsed object. -/
theorem c2_amended :
    (∀ (u c f : Option (List Char)) (st it : Option TimeDT) (p : List Char)
        (i : ImagePathInfo), ImagePathInfo.make u c f st it (some p) = .ok i →
        i.unit_id.isSome = true ∧ i.camera_id.isSome = true ∧
        i.sequence_time.isSome = true ∧ i.image_time.isSome = true) ∧
    (∀ (hdr : List (List Char × List Char)) (i : ImagePathInfo),
        ImagePathInfo.from_fits_header hdr = .ok i →
        i.unit_id.isSome = true ∧ i.camera_id.isSome = true ∧
        i.sequence_time.isSome = true ∧ i.image_time.isSome = true) ∧
    (∀ (u c f : Option (List Char)) (st it : Option TimeDT),
        ImagePathInfo.make u c f st it none = .ok ⟨u, c, f, st, it, none⟩) := by
  refine ⟨fun u c f st it p i h => make_some_path_populated h, ?_, fun _ _ _ _ _ => rfl⟩
  intro hdr i h
  cases hfn : headerLookup ("FILENAME".data) hdr with
  | none => simp [ImagePathInfo.from_fits_header, hfn] at h
  | some fn =>
    cases hfp : ImagePathInfo.fromPath fn with
    | ok j =>
      simp only [ImagePathInfo.from_fits_header, hfn, hfp, Except.ok.injEq] at h
      subst h
      exact make_some_path_populated hfp
    | error e =>
      cases hsid : headerLookup ("SEQID".data) hdr with
      | none => simp [ImagePathInfo.from_fits_header, hfn, hfp, hsid] at h
      | some sid =>
        cases hiid : headerLookup ("IMAGEID".data) hdr with
        | none => simp [ImagePathInfo.from_fits_header, hfn, hfp, hsid, hiid] at h
        | some iid =>
          simp only [ImagePathInfo.from_fits_header, hfn, hfp, hsid, hiid] at h
          rcases hsp : splitUnderscores sid with _ | ⟨a, _ | ⟨b, _ | ⟨c3, _ | ⟨d, tl⟩⟩⟩⟩ <;>
            simp only [hsp] at h
          case cons.cons.cons.nil =>
            rcases hsp2 : splitUnderscores iid with _ | ⟨a2, _ | ⟨b2, _ | ⟨c4, _ | ⟨d2, tl2⟩⟩⟩⟩ <;>
              simp only [hsp2] at h
            case cons.cons.cons.nil =>
              cases hst : parseDate15 c3 with
              | none => simp [hst] at h
              | some ts =>
                cases hit : parseDate15 c4 with
                | none => simp [hst, hit] at h
                | some ti =>
                  simp only [hst, hit, ImagePathInfo.make, Except.ok.injEq] at h
                  subst h
                  exact ⟨rfl, rfl, rfl, rfl⟩
            all_goals simp at h
          all_goals simp at h

/-- Witness for C2's amended statement at a concrete path construction. -/
theorem c2_amended_witness :
    ({ unit_id := some (("PAN012").data), camera_id := some (("358d0f").data),
       field_name := some [], sequence_time := some ⟨2018, 8, 24, 3, 59, 17⟩,
       image_time := some ⟨2018, 8, 24, 4, 1, 18⟩,
       path := some (("PAN012/358d0f/20180824T035917/20180824T040118").data) } :
        ImagePathInfo).unit_id.isSome = true ∧
    ({ unit_id := some (("PAN012").data), camera_id := some (("358d0f").data),
       field_name := some [], sequence_time := some ⟨2018, 8, 24, 3, 59, 17⟩,
       image_time := some ⟨2018, 8, 24, 4, 1, 18⟩,
       path := some (("PAN012/358d0f/20180824T035917/20180824T040118").data) } :
        ImagePathInfo).camera_id.isSome = true ∧
    ({ unit_id := some (("PAN012").data), camera_id := some (("358d0f").data),
       field_name := some [], sequence_time := some ⟨2018, 8, 24, 3, 59, 17⟩,
       image_time := some ⟨2018, 8, 24, 4, 1, 18⟩,
       path := some (("PAN012/358d0f/20180824T035917/20180824T040118").data) } :
        ImagePathInfo).sequence_time.isSome = true ∧
    ({ unit_id := some (("PAN012").data), camera_id := some (("358d0f").data),
       field_name := some [], sequence_time := some ⟨2018, 8, 24, 3, 59, 17⟩,
       image_time := some ⟨2018, 8, 24, 4, 1, 18⟩,
       path := some (("PAN012/358d0f/20180824T035917/20180824T040118").data) } :
        ImagePathInfo).image_time.isSome = true :=
  c2_amended.1 none none none none none
    (("PAN012/358d0f/20180824T035917/20180824T040118").data) _ (by rfl)

/-- C3 counterexample: `PAN001/PAN002/abcdef/20200101T000000/20200101T000001`
parses successfully with `unit_id = PAN002`, although the first occurrence of
`PAN` + 3 digits in the string is `PAN001`: the greedy `pre_info` prefix makes
the parser pick a later occurrence. -/
theorem c3_counterexample :
    ImagePathInfo.fromPath
        (("PAN001/PAN002/abcdef/20200101T000000/20200101T000001").data) =
      .ok { unit_id := some (("PAN002").data), camera_id := some (("abcdef").data),
            field_name := some [], sequence_time := some ⟨2020, 1, 1, 0, 0, 0⟩,
            image_time := some ⟨2020, 1, 1, 0, 0, 1⟩,
            path := some (("PAN001/PAN002/abcdef/20200101T000000/20200101T000001").data) } ∧
    firstUnitId (("PAN001/PAN002/abcdef/20200101T000000/20200101T000001").data) =
      some (("PAN001").data) ∧
    (("PAN002").data : List Char) ≠ (("PAN001").data : List Char) :=
  ⟨by rfl, by rfl, by decide⟩

/-- C3 amended: when the accepted string contains several `PAN`+3-digit
tokens, the parsed `unit_id` is the latest occurrence from which the rest of
the grammar still matches (the greedy `pre_info` prefix), not the first one:
with two unit segments before the camera segment, the second is returned. -/
theorem c3_amended (u3 u3' cam : List Char) (ts ti : TimeDT)
    (hu : unit3 u3) (hu' : unit3 u3') (hcam : camShaped cam)
    (hts : validDT ts = true) (hti : validDT ti = true) :
    ImagePathInfo.fromPath
        (unitStr u3 ++ '/' :: (unitStr u3' ++ '/' ::
          (cam ++ '/' :: (flatten_time ts ++ '/' :: flatten_time ti)))) =
      .ok { unit_id := some (unitStr u3'), camera_id := some cam,
            field_name := some [], sequence_time := some ts, image_time := some ti,
            path := some (unitStr u3 ++ '/' :: (unitStr u3' ++ '/' ::
              (cam ++ '/' :: (flatten_time ts ++ '/' :: flatten_time ti)))) } :=
  fromPath_two_units hu hu' hcam hts hti

/-- Witness for C3's amended statement at
`PAN001/PAN002/abcdef/20200101T000000/20200101T000001`. -/
theorem c3_amended_witness :
    ImagePathInfo.fromPath
        (unitStr ['0', '0', '1'] ++ '/' :: (unitStr ['0', '0', '2'] ++ '/' ::
          (['a', 'b', 'c', 'd', 'e', 'f'] ++ '/' ::
            (flatten_time ⟨2020, 1, 1, 0, 0, 0⟩ ++ '/' ::
              flatten_time ⟨2020, 1, 1, 0, 0, 1⟩)))) =
      .ok { unit_id := some (unitStr ['0', '0', '2']),
            camera_id := some ['a', 'b', 'c', 'd', 'e', 'f'],
            field_name := some [],
            sequence_time := some ⟨2020, 1, 1, 0, 0, 0⟩,
            image_time := some ⟨2020, 1, 1, 0, 0, 1⟩,
            path := some (unitStr ['0', '0', '1'] ++ '/' ::
              (unitStr ['0', '0', '2'] ++ '/' ::
                (['a', 'b', 'c', 'd', 'e', 'f'] ++ '/' ::
                  (flatten_time ⟨2020, 1, 1, 0, 0, 0⟩ ++ '/' ::
                    flatten_time ⟨2020, 1, 1, 0, 0, 1⟩)))) } :=
  c3_amended ['0', '0', '1'] ['0', '0', '2'] ['a', 'b', 'c', 'd', 'e', 'f']
    ⟨2020, 1, 1, 0, 0, 0⟩ ⟨2020, 1, 1, 0, 0, 1⟩
    (by decide) (by decide) (by decide) (by decide) (by decide)

/-- C4 counterexample: `PAN012/358d0f/20180824T035917/20180824T040118` parses
with `unit_id = PAN012`, but inserting the non-empty field segment `PAN999`
between the unit and camera segments yields a string that parses with
`unit_id = PAN999`, so an arbitrary non-empty field segment does not preserve
the parsed fields. -/
theorem c4_counterexample :
    ImagePathInfo.fromPath (("PAN012/358d0f/20180824T035917/20180824T040118").data) =
      .ok { unit_id := some (("PAN012").data), camera_id := some (("358d0f").data),
            field_name := some [], sequence_time := some ⟨2018, 8, 24, 3, 59, 17⟩,
            image_time := some ⟨2018, 8, 24, 4, 1, 18⟩,
            path := some (("PAN012/358d0f/20180824T035917/20180824T040118").data) } ∧
    ImagePathInfo.fromPath
        (("PAN012/PAN999/358d0f/20180824T035917/20180824T040118").data) =
      .ok { unit_id := some (("PAN999").data), camera_id := some (("358d0f").data),
            field_name := some [], sequence_time := some ⟨2018, 8, 24, 3, 59, 17⟩,
            image_time := some ⟨2018, 8, 24, 4, 1, 18⟩,
            path := some (("PAN012/PAN999/358d0f/20180824T035917/20180824T040118").data) } ∧
    (("PAN999").data : List Char) ≠ [] ∧
    some (("PAN999").data) ≠ some (("PAN012").data) :=
  ⟨by rfl, by rfl, by decide, by decide⟩

/-- C4 amended: inserting a non-empty `field_name` segment that contains no
newline and no `PAN\d{3}` token (with `\d` any Unicode decimal digit) between
the unit and camera segments of a canonical path preserves the parsed
`unit_id`, `camera_id`, `sequence_time` and `image_time` (the inserted
segment is returned as `field_name`). -/
theorem c4_amended (u3 f cam : List Char) (ts ti : TimeDT)
    (hu : unit3 u3) (hne : f ≠ []) (hfnl : ∀ c ∈ f, c ≠ '\n')
    (hfu : containsUnitId f = false) (hcam : camShaped cam)
    (hts : validDT ts = true) (hti : validDT ti = true) :
    ImagePathInfo.fromPath
        (unitStr u3 ++ '/' :: (cam ++ '/' :: (flatten_time ts ++ '/' :: flatten_time ti))) =
      .ok { unit_id := some (unitStr u3), camera_id := some cam,
            field_name := some [], sequence_time := some ts, image_time := some ti,
            path := some (unitStr u3 ++ '/' ::
              (cam ++ '/' :: (flatten_time ts ++ '/' :: flatten_time ti))) } ∧
    ImagePathInfo.fromPath
        (unitStr u3 ++ '/' :: (f ++ '/' ::
          (cam ++ '/' :: (flatten_time ts ++ '/' :: flatten_time ti)))) =
      .ok { unit_id := some (unitStr u3), camera_id := some cam,
            field_name := some f, sequence_time := some ts, image_time := some ti,
            path := some (unitStr u3 ++ '/' :: (f ++ '/' ::
              (cam ++ '/' :: (flatten_time ts ++ '/' :: flatten_time ti)))) } :=
  ⟨fromPath_canonical hu hcam hts hti, fromPath_field hu hfnl hfu hcam hts hti⟩

/-- Witness for C4's amended statement with the field segment `Hd189733`. -/
theorem c4_amended_witness :
    ImagePathInfo.fromPath
        (unitStr ['0', '1', '2'] ++ '/' :: (['3', '5', '8', 'd', '0', 'f'] ++ '/' ::
          (flatten_time ⟨2018, 8, 24, 3, 59, 17⟩ ++ '/' ::
            flatten_time ⟨2018, 8, 24, 4, 1, 18⟩))) =
      .ok { unit_id := some (unitStr ['0', '1', '2']),
            camera_id := some ['3', '5', '8', 'd', '0', 'f'],
            field_name := some [],
            sequence_time := some ⟨2018, 8, 24, 3, 59, 17⟩,
            image_time := some ⟨2018, 8, 24, 4, 1, 18⟩,
            path := some (unitStr ['0', '1', '2'] ++ '/' ::
              (['3', '5', '8', 'd', '0', 'f'] ++ '/' ::
                (flatten_time ⟨2018, 8, 24, 3, 59, 17⟩ ++ '/' ::
                  flatten_time ⟨2018, 8, 24, 4, 1, 18⟩))) } ∧
    ImagePathInfo.fromPath
        (unitStr ['0', '1', '2'] ++ '/' :: ((("Hd189733").data) ++ '/' ::
          (['3', '5', '8', 'd', '0', 'f'] ++ '/' ::
            (flatten_time ⟨2018, 8, 24, 3, 59, 17⟩ ++ '/' ::
              flatten_time ⟨2018, 8, 24, 4, 1, 18⟩)))) =
      .ok { unit_id := some (unitStr ['0', '1', '2']),
            camera_id := some ['3', '5', '8', 'd', '0', 'f'],
            field_name := some (("Hd189733").data),
            sequence_time := some ⟨2018, 8, 24, 3, 59, 17⟩,
            image_time := some ⟨2018, 8, 24, 4, 1, 18⟩,
            path := some (unitStr ['0', '1', '2'] ++ '/' :: ((("Hd189733").data) ++ '/' ::
              (['3', '5', '8', 'd', '0', 'f'] ++ '/' ::
                (flatten_time ⟨2018, 8, 24, 3, 59, 17⟩ ++ '/' ::
                  flatten_time ⟨2018, 8, 24, 4, 1, 18⟩)))) } :=
  c4_amended ['0', '1', '2'] (("Hd189733").data) ['3', '5', '8', 'd', '0', 'f']
    ⟨2018, 8, 24, 3, 59, 17⟩ ⟨2018, 8, 24, 4, 1, 18⟩
    (by decide) (by decide) (by decide) (by decide) (by decide) (by decide) (by decide)

set_option maxRecDepth 10000 in
/-- C5 counterexample: with a field segment present, the path carrying the
redundant `unit_cam_seq_` token between the sequence and image timestamps
parses with `field_name = ''` while the same path with the token removed
parses with `field_name = 'myfield'`: the two parses are not identical on
`field_name` (the other four fields agree). -/
theorem c5_counterexample :
    ImagePathInfo.fromPath
        (("PAN012/myfield/358d0f/20180824T035917/20180824T040118").data) =
      .ok { unit_id := some (("PAN012").data), camera_id := some (("358d0f").data),
            field_name := some (("myfield").data),
            sequence_time := some ⟨2018, 8, 24, 3, 59, 17⟩,
            image_time := some ⟨2018, 8, 24, 4, 1, 18⟩,
            path := some (("PAN012/myfield/358d0f/20180824T035917/20180824T040118").data) } ∧
    ImagePathInfo.fromPath
        (("PAN012/myfield/358d0f/20180824T035917/PAN012_358d0f_20180824T035917_20180824T040118").data) =
      .ok { unit_id := some (("PAN012").data), camera_id := some (("358d0f").data),
            field_name := some [],
            sequence_time := some ⟨2018, 8, 24, 3, 59, 17⟩,
            image_time := some ⟨2018, 8, 24, 4, 1, 18⟩,
            path := some (("PAN012/myfield/358d0f/20180824T035917/PAN012_358d0f_20180824T035917_20180824T040118").data) } ∧
    some (("myfield").data) ≠ some ([] : List Char) :=
  ⟨by rfl, by rfl, by decide⟩

/-- C5 amended: a canonical path (optionally with a field segment) carrying
the redundant `unit_id_camera_id_sequence_time_` token between the sequence
and image timestamps parses successfully with the same `unit_id`,
`camera_id`, `sequence_time` and `image_time` as the same path with the token
removed; `field_name` may differ (the token-carrying form yields `''`). -/
theorem c5_amended (u3 f cam : List Char) (ts ti : TimeDT)
    (hu : unit3 u3) (hfnl : ∀ c ∈ f, c ≠ '\n')
    (hfu : containsUnitId f = false) (hcam : camShaped cam)
    (hts : validDT ts = true) (hti : validDT ti = true) :
    ImagePathInfo.fromPath
        (unitStr u3 ++ '/' :: (f ++ '/' :: (cam ++ '/' :: (flatten_time ts ++ '/' ::
          (unitStr u3 ++ '_' :: (cam ++ '_' ::
            (flatten_time ts ++ '_' :: flatten_time ti))))))) =
      .ok { unit_id := some (unitStr u3), camera_id := some cam,
            field_name := some [], sequence_time := some ts, image_time := some ti,
            path := some (unitStr u3 ++ '/' :: (f ++ '/' ::
              (cam ++ '/' :: (flatten_time ts ++ '/' ::
                (unitStr u3 ++ '_' :: (cam ++ '_' ::
                  (flatten_time ts ++ '_' :: flatten_time ti))))))) } ∧
    ImagePathInfo.fromPath
        (unitStr u3 ++ '/' :: (f ++ '/' ::
          (cam ++ '/' :: (flatten_time ts ++ '/' :: flatten_time ti)))) =
      .ok { unit_id := some (unitStr u3), camera_id := some cam,
            field_name := some f, sequence_time := some ts, image_time := some ti,
            path := some (unitStr u3 ++ '/' :: (f ++ '/' ::
              (cam ++ '/' :: (flatten_time ts ++ '/' :: flatten_time ti)))) } :=
  ⟨fromPath_token hu hfnl hcam hts hti, fromPath_field hu hfnl hfu hcam hts hti⟩

/-- Witness for C5's amended statement with the field segment `myfield`. -/
theorem c5_amended_witness :
    ImagePathInfo.fromPath
        (unitStr ['0', '1', '2'] ++ '/' :: ((("myfield").data) ++ '/' ::
          (['3', '5', '8', 'd', '0', 'f'] ++ '/' ::
            (flatten_time ⟨2018, 8, 24, 3, 59, 17⟩ ++ '/' ::
              (unitStr ['0', '1', '2'] ++ '_' :: (['3', '5', '8', 'd', '0', 'f'] ++ '_' ::
                (flatten_time ⟨2018, 8, 24, 3, 59, 17⟩ ++ '_' ::
                  flatten_time ⟨2018, 8, 24, 4, 1, 18⟩))))))) =
      .ok { unit_id := some (unitStr ['0', '1', '2']),
            camera_id := some ['3', '5', '8', 'd', '0', 'f'],
            field_name := some [],
            sequence_time := some ⟨2018, 8, 24, 3, 59, 17⟩,
            image_time := some ⟨2018, 8, 24, 4, 1, 18⟩,
            path := some (unitStr ['0', '1', '2'] ++ '/' :: ((("myfield").data) ++ '/' ::
              (['3', '5', '8', 'd', '0', 'f'] ++ '/' ::
                (flatten_time ⟨2018, 8, 24, 3, 59, 17⟩ ++ '/' ::
                  (unitStr ['0', '1', '2'] ++ '_' ::
                    (['3', '5', '8', 'd', '0', 'f'] ++ '_' ::
                      (flatten_time ⟨2018, 8, 24, 3, 59, 17⟩ ++ '_' ::
                        flatten_time ⟨2018, 8, 24, 4, 1, 18⟩))))))) } ∧
    ImagePathInfo.fromPath
        (unitStr ['0', '1', '2'] ++ '/' :: ((("myfield").data) ++ '/' ::
          (['3', '5', '8', 'd', '0', 'f'] ++ '/' ::
            (flatten_time ⟨2018, 8, 24, 3, 59, 17⟩ ++ '/' ::
              flatten_time ⟨2018, 8, 24, 4, 1, 18⟩)))) =
      .ok { unit_id := some (unitStr ['0', '1', '2']),
            camera_id := some ['3', '5', '8', 'd', '0', 'f'],
            field_name := some (("myfield").data),
            sequence_time := some ⟨2018, 8, 24, 3, 59, 17⟩,
            image_time := some ⟨2018, 8, 24, 4, 1, 18⟩,
            path := some (unitStr ['0', '1', '2'] ++ '/' :: ((("myfield").data) ++ '/' ::
              (['3', '5', '8', 'd', '0', 'f'] ++ '/' ::
                (flatten_time ⟨2018, 8, 24, 3, 59, 17⟩ ++ '/' ::
                  flatten_time ⟨2018, 8, 24, 4, 1, 18⟩)))) } :=
  c5_amended ['0', '1', '2'] (("myfield").data) ['3', '5', '8', 'd', '0', 'f']
    ⟨2018, 8, 24, 3, 59, 17⟩ ⟨2018, 8, 24, 4, 1, 18⟩
    (by decide) (by decide) (by decide) (by decide) (by decide) (by decide)

/-- C6: every input that fails the anchored grammar — in particular any
string with no `PAN`+3-digits token followed by two `YYYYMMDDTHHMMSS`-shaped
segments — makes construction fail with the invalid-path `ValueError`, whose
message carries the offending input string. -/
theorem c6_rejection (s : List Char)
    (h : PATH_MATCHER s = none ∨ afterUnitTwoTimes s = false) :
    ImagePathInfo.fromPath s = .error (.invalidPath (invalidPathMessage s)) ∧
    invalidPathMessage s = ("Invalid path received: ").data ++ s := by
  have hnone : PATH_MATCHER s = none := by
    rcases h with h | h
    · exact h
    · cases hm : PATH_MATCHER s with
      | none => rfl
      | some m =>
        rw [PATH_MATCHER_two_times hm] at h
        exact absurd h (by decide)
  exact ⟨by simp [ImagePathInfo.fromPath, ImagePathInfo.make, hnone], rfl⟩

/-- Witness for C6 at the input `foobar`. -/
theorem c6_rejection_witness :
    ImagePathInfo.fromPath (("foobar").data) =
      .error (.invalidPath (invalidPathMessage (("foobar").data))) ∧
    invalidPathMessage (("foobar").data) =
      ("Invalid path received: ").data ++ (("foobar").data) :=
  c6_rejection (("foobar").data) (Or.inr (by decide))

/-- The bucket path of the concrete scenario in the spec and in the
doctests of `images.py`. -/
def bucketExamplePath : List Char :=
  ("gs://panoptes-images-background/PAN012/Hd189733/358d0f/20180824T035917/20180824T040118.fits").data

/-- The parse result of `bucketExamplePath`. -/
def bucketExampleInfo : ImagePathInfo :=
  { unit_id := some (("PAN012").data), camera_id := some (("358d0f").data),
    field_name := some (("Hd189733").data),
    sequence_time := some ⟨2018, 8, 24, 3, 59, 17⟩,
    image_time := some ⟨2018, 8, 24, 4, 1, 18⟩,
    path := some bucketExamplePath }

set_option maxRecDepth 10000 in
/-- C7: the concrete scenario: the bucket path parses with
`unit_id = PAN012`, `camera_id = 358d0f`,
`sequence_id = PAN012_358d0f_20180824T035917`,
`image_id = PAN012_358d0f_20180824T040118`, and
`as_path(base='/tmp', ext='jpg')` gives
`/tmp/PAN012/358d0f/20180824T035917/20180824T040118.jpg`. -/
theorem c7_concrete_scenario :
    ImagePathInfo.fromPath bucketExamplePath = .ok bucketExampleInfo ∧
    bucketExampleInfo.unit_id = some (("PAN012").data) ∧
    bucketExampleInfo.camera_id = some (("358d0f").data) ∧
    bucketExampleInfo.sequence_id = some (("PAN012_358d0f_20180824T035917").data) ∧
    bucketExampleInfo.image_id = some (("PAN012_358d0f_20180824T040118").data) ∧
    bucketExampleInfo.as_path (some (("/tmp").data)) (some (("jpg").data)) =
      some (("/tmp/PAN012/358d0f/20180824T035917/20180824T040118.jpg").data) :=
  ⟨by rfl, by rfl, by rfl, by rfl, by rfl, by rfl⟩

/-- C8: when the `FILENAME` value fails to parse as a path, the constructor
falls back to the underscore-split `SEQID`/`IMAGEID` pair, taking `unit_id`
and `camera_id` from `SEQID` and the third token of each as the two
timestamps, and the result carries the same `sequence_id` and `image_id` as
parsing the equivalent canonical path. -/
theorem c8_header_fallback (hdr : List (List Char × List Char))
    (fn sid iid u3 cam st it x1 x2 : List Char) (ts ti : TimeDT)
    (hfn : headerLookup (("FILENAME").data) hdr = some fn)
    (hfail : ∃ e, ImagePathInfo.fromPath fn = .error e)
    (hsid : headerLookup (("SEQID").data) hdr = some sid)
    (hiid : headerLookup (("IMAGEID").data) hdr = some iid)
    (hsplit : splitUnderscores sid = [unitStr u3, cam, st])
    (hsplit2 : splitUnderscores iid = [x1, x2, it])
    (hst : parseDate15 st = some ts) (hit : parseDate15 it = some ti)
    (hu : unit3 u3) (hcam : camShaped cam)
    (hvs : validDT ts = true) (hvt : validDT ti = true) :
    ImagePathInfo.from_fits_header hdr =
      .ok { unit_id := some (unitStr u3), camera_id := some cam, field_name := none,
            sequence_time := some ts, image_time := some ti, path := none } ∧
    ∃ j, ImagePathInfo.fromPath
        (unitStr u3 ++ '/' :: (cam ++ '/' :: (flatten_time ts ++ '/' :: flatten_time ti))) =
          .ok j ∧
      ({ unit_id := some (unitStr u3), camera_id := some cam, field_name := none,
         sequence_time := some ts, image_time := some ti, path := none } :
          ImagePathInfo).sequence_id = j.sequence_id ∧
      ({ unit_id := some (unitStr u3), camera_id := some cam, field_name := none,
         sequence_time := some ts, image_time := some ti, path := none } :
          ImagePathInfo).image_id = j.image_id := by
  obtain ⟨e, he⟩ := hfail
  constructor
  · simp [ImagePathInfo.from_fits_header, hfn, he, hsid, hiid, hsplit, hsplit2,
      hst, hit, ImagePathInfo.make]
  · exact ⟨_, fromPath_canonical hu hcam hvs hvt, rfl, rfl⟩

/-- Witness for C8 at the header of the spec's scenario, with an unusable
`FILENAME`. -/
theorem c8_header_fallback_witness :
    ImagePathInfo.from_fits_header
        [((("FILENAME").data), (("foobar").data)),
         ((("SEQID").data), (("PAN012_358d0f_20180824T035917").data)),
         ((("IMAGEID").data), (("PAN012_358d0f_20180824T040118").data))] =
      .ok { unit_id := some (unitStr ['0', '1', '2']),
            camera_id := some ['3', '5', '8', 'd', '0', 'f'], field_name := none,
            sequence_time := some ⟨2018, 8, 24, 3, 59, 17⟩,
            image_time := some ⟨2018, 8, 24, 4, 1, 18⟩, path := none } ∧
    ∃ j, ImagePathInfo.fromPath
        (unitStr ['0', '1', '2'] ++ '/' :: (['3', '5', '8', 'd', '0', 'f'] ++ '/' ::
          (flatten_time ⟨2018, 8, 24, 3, 59, 17⟩ ++ '/' ::
            flatten_time ⟨2018, 8, 24, 4, 1, 18⟩))) = .ok j ∧
      ({ unit_id := some (unitStr ['0', '1', '2']),
         camera_id := some ['3', '5', '8', 'd', '0', 'f'], field_name := none,
         sequence_time := some ⟨2018, 8, 24, 3, 59, 17⟩,
         image_time := some ⟨2018, 8, 24, 4, 1, 18⟩, path := none } :
          ImagePathInfo).sequence_id = j.sequence_id ∧
      ({ unit_id := some (unitStr ['0', '1', '2']),
         camera_id := some ['3', '5', '8', 'd', '0', 'f'], field_name := none,
         sequence_time := some ⟨2018, 8, 24, 3, 59, 17⟩,
         image_time := some ⟨2018, 8, 24, 4, 1, 18⟩, path := none } :
          ImagePathInfo).image_id = j.image_id :=
  c8_header_fallback
    [((("FILENAME").data), (("foobar").data)),
     ((("SEQID").data), (("PAN012_358d0f_20180824T035917").data)),
     ((("IMAGEID").data), (("PAN012_358d0f_20180824T040118").data))]
    (("foobar").data) (("PAN012_358d0f_20180824T035917").data)
    (("PAN012_358d0f_20180824T040118").data)
    ['0', '1', '2'] ['3', '5', '8', 'd', '0', 'f']
    (("20180824T035917").data) (("20180824T040118").data)
    (("PAN012").data) (("358d0f").data)
    ⟨2018, 8, 24, 3, 59, 17⟩ ⟨2018, 8, 24, 4, 1, 18⟩
    (by rfl) ⟨.invalidPath (invalidPathMessage (("foobar").data)), by rfl⟩
    (by rfl) (by rfl) (by rfl) (by rfl) (by rfl) (by rfl)
    (by decide) (by decide) (by decide) (by decide)

theorem obs_make_map :
    ∀ (p u c f : Option (List Char)) (st it : Option TimeDT),
      (ObservationPathInfo.make p u c f st it).map ObservationPathInfo.toImagePathInfo =
        ImagePathInfo.make u c f st it p := by
  intro p u c f st it
  cases p with
  | none => rfl
  | some pp =>
    cases hm : PATH_MATCHER pp with
    | none =>
      simp [ObservationPathInfo.make, ImagePathInfo.make, hm, Except.map]
    | some m =>
      cases hs : parseDate15 m.tail.sequence_time with
      | none => simp [ObservationPathInfo.make, ImagePathInfo.make, hm, hs, Except.map]
      | some ts2 =>
        cases hi : parseDate15 m.tail.image_time with
        | none => simp [ObservationPathInfo.make, ImagePathInfo.make, hm, hs, hi, Except.map]
        | some ti2 =>
          simp [ObservationPathInfo.make, ImagePathInfo.make, hm, hs, hi, Except.map,
            ObservationPathInfo.toImagePathInfo]

theorem obs_fromPath_map (p : List Char) :
    (ObservationPathInfo.fromPath p).map ObservationPathInfo.toImagePathInfo =
      ImagePathInfo.fromPath p :=
  obs_make_map (some p) none none none none none

/-- C9: `ImagePathInfo` and `ObservationPathInfo` behave identically: the
three construction modes succeed or fail in the same way with the same field
values, and all derived properties (`id`, `sequence_id`, `image_id`,
`get_full_id` for every separator, `as_path` for every base and extension)
agree through the field-for-field correspondence. -/
theorem c9_equivalence :
    (∀ (p u c f : Option (List Char)) (st it : Option TimeDT),
        (ObservationPathInfo.make p u c f st it).map ObservationPathInfo.toImagePathInfo =
          ImagePathInfo.make u c f st it p) ∧
    (∀ p : List Char,
        (ObservationPathInfo.fromPath p).map ObservationPathInfo.toImagePathInfo =
          ImagePathInfo.fromPath p) ∧
    (∀ hdr : List (List Char × List Char),
        (ObservationPathInfo.from_fits_header hdr).map ObservationPathInfo.toImagePathInfo =
          ImagePathInfo.from_fits_header hdr) ∧
    (∀ o : ObservationPathInfo,
        o.sequence_id = o.toImagePathInfo.sequence_id ∧
        o.image_id = o.toImagePathInfo.image_id ∧
        ObservationPathInfo.id o = ImagePathInfo.id o.toImagePathInfo ∧
        (∀ sep, o.get_full_id sep = o.toImagePathInfo.get_full_id sep) ∧
        (∀ base ext, o.as_path base ext = o.toImagePathInfo.as_path base ext)) := by
  refine ⟨obs_make_map, obs_fromPath_map, ?_, ?_⟩
  · intro hdr
    cases hfn : headerLookup (("FILENAME").data) hdr with
    | none =>
      simp [ObservationPathInfo.from_fits_header, ImagePathInfo.from_fits_header, hfn, Except.map]
    | some fn =>
      cases ho : ObservationPathInfo.fromPath fn with
      | ok oi =>
        have himg : ImagePathInfo.fromPath fn = .ok oi.toImagePathInfo := by
          rw [← obs_fromPath_map fn, ho]
          rfl
        simp [ObservationPathInfo.from_fits_header, ImagePathInfo.from_fits_header,
          hfn, ho, himg, Except.map, ObservationPathInfo.toImagePathInfo]
      | error e =>
        have himg : ImagePathInfo.fromPath fn = .error e := by
          rw [← obs_fromPath_map fn, ho]
          rfl
        cases hsid : headerLookup (("SEQID").data) hdr with
        | none =>
          simp [ObservationPathInfo.from_fits_header, ImagePathInfo.from_fits_header,
            hfn, ho, himg, hsid, Except.map]
        | some sid =>
          cases hiid : headerLookup (("IMAGEID").data) hdr with
          | none =>
            simp [ObservationPathInfo.from_fits_header, ImagePathInfo.from_fits_header,
              hfn, ho, himg, hsid, hiid, Except.map]
          | some iid =>
            simp only [ObservationPathInfo.from_fits_header,
              ImagePathInfo.from_fits_header, hfn, ho, himg, hsid, hiid]
            rcases hsp : splitUnderscores sid with _ | ⟨a, _ | ⟨b, _ | ⟨c3, _ | ⟨d, tl⟩⟩⟩⟩ <;>
              simp only [hsp] <;> try rfl
            case cons.cons.cons.nil =>
              rcases hsp2 : splitUnderscores iid with
                _ | ⟨a2, _ | ⟨b2, _ | ⟨c4, _ | ⟨d2, tl2⟩⟩⟩⟩ <;>
                simp only [hsp2] <;> try rfl
              case cons.cons.cons.nil =>
                cases hst : parseDate15 c3 with
                | none => simp [hst, Except.map]
                | some ts =>
                  cases hit : parseDate15 c4 with
                  | none => simp [hst, hit, Except.map]
                  | some ti =>
                    simp only [hst, hit]
                    exact obs_make_map none (some a) (some b) none (some ts) (some ti)
  · intro o
    exact ⟨rfl, rfl, rfl, fun sep => rfl, fun base ext => rfl⟩

/-- C10: the `SEQID`/`IMAGEID` fallback of `from_fits_header` is attempted
only after a `FILENAME` lookup that succeeds and a path parse that fails:
when the `FILENAME` key is absent the `KeyError` propagates (in both
classes), even when valid `SEQID` and `IMAGEID` keys are present, and when
the `FILENAME` value parses the fallback is never consulted. -/
theorem c10_filename_keyerror :
    (∀ hdr : List (List Char × List Char),
        headerLookup (("FILENAME").data) hdr = none →
        ImagePathInfo.from_fits_header hdr = .error (.keyError (("FILENAME").data)) ∧
        ObservationPathInfo.from_fits_header hdr =
          .error (.keyError (("FILENAME").data))) ∧
    (∀ (hdr : List (List Char × List Char)) (fn : List Char) (i : ImagePathInfo),
        headerLookup (("FILENAME").data) hdr = some fn →
        ImagePathInfo.fromPath fn = .ok i →
        ImagePathInfo.from_fits_header hdr = .ok i) := by
  constructor
  · intro hdr h
    constructor <;>
      simp [ImagePathInfo.from_fits_header, ObservationPathInfo.from_fits_header, h]
  · intro hdr fn i h1 h2
    simp [ImagePathInfo.from_fits_header, h1, h2]

/-- Witness for C10 at a header carrying valid `SEQID`/`IMAGEID` but no
`FILENAME`. -/
theorem c10_filename_keyerror_witness :
    ImagePathInfo.from_fits_header
        [((("SEQID").data), (("PAN012_358d0f_20180824T035917").data)),
         ((("IMAGEID").data), (("PAN012_358d0f_20180824T040118").data))] =
      .error (.keyError (("FILENAME").data)) ∧
    ObservationPathInfo.from_fits_header
        [((("SEQID").data), (("PAN012_358d0f_20180824T035917").data)),
         ((("IMAGEID").data), (("PAN012_358d0f_20180824T040118").data))] =
      .error (.keyError (("FILENAME").data)) :=
  c10_filename_keyerror.1
    [((("SEQID").data), (("PAN012_358d0f_20180824T035917").data)),
     ((("IMAGEID").data), (("PAN012_358d0f_20180824T040118").data))]
    (by rfl)
